import Mathlib

/-!
Verification of the build-configuration engine of build.py (openvino-scripts).

The development shallowly embeds the configuration data model and the
operations of build.py: the option tables, the argparse namespace, the
configuration-layer loader, the two-phase import/parse merge, the export
engine, the CMake-definition synthesizer, the build-directory computation,
the environment mutation, and the control flow of run().

Python dictionaries are association lists with in-place update semantics;
Python exceptions raised by the synthesizer are an explicit error type;
process spawning is a trace of phases in the result of run.
-/

set_option maxHeartbeats 1600000
set_option maxRecDepth 8000

namespace OVBuild

/-- Values that appear in the YAML configuration layers and in the argparse
namespace: Python None, bool, int, str, and list of str. -/
inductive PVal where
  | none
  | bool (b : Bool)
  | int (n : Int)
  | str (s : String)
  | strList (xs : List String)
deriving DecidableEq, Repr

/-- Python dict lookup on an association list (first matching key). -/
def dlookup {β : Type} : List (String × β) → String → Option β
  | [], _ => Option.none
  | p :: rest, k => if p.1 = k then some p.2 else dlookup rest k

/-- Keys of an association list, in order. -/
def keysOf {β : Type} (d : List (String × β)) : List String := d.map Prod.fst

/-- Python dict assignment d[k] = v: update the entry in place when the key
is present, otherwise append it. -/
def dset {β : Type} (d : List (String × β)) (k : String) (v : β) : List (String × β) :=
  if k ∈ keysOf d then d.map (fun p => if p.1 = k then (k, v) else p)
  else d ++ [(k, v)]

/-- Python dict.update: assign every pair of e into d, in order. -/
def dUpdate {β : Type} (d e : List (String × β)) : List (String × β) :=
  e.foldl (fun acc kv => dset acc kv.1 kv.2) d

/-- Python falsiness of a configuration value. -/
def pyFalsy : PVal → Bool
  | .none => true
  | .bool b => !b
  | .int n => n == 0
  | .str s => s == ""
  | .strList xs => xs.isEmpty

/-- Python truthiness of an optional string (None and the empty string are
falsy). -/
def pyTruthyOpt : Option String → Bool
  | Option.none => false
  | some s => !(s == "")

/-! ## Option tables of build.py -/

/-- ON_OFF_FLAGS of build.py: the tri-state flags accepting on / off. -/
def ON_OFF_FLAGS : List String := [
  "openvino-debug", "debug-caps",
  "clang-format", "clang-tidy", "clang-tidy-fix", "cpplint",
  "sanitizer", "thread_sanitizer", "ub_sanitizer",
  "python", "wheel", "samples", "tests", "docs",
  "system-pugixml", "system-snappy", "system-opencl", "system-tbb",
  "system-protobuf", "system-flatbuffers", "tbbbind-2-5",
  "sse42", "avx2", "avx512f",
  "mlas-for-cpu", "kleidiai-for-cpu",
  "profiling-itt", "coverage", "fuzzing",
  "lto", "faster-build", "integritycheck", "qspectre",
  "cpp-api", "python-api", "genai-api",
  "notebooks",
  "ovms",
  "cpu-specific-target-per-test"]

/-- FRONTENDS of build.py. -/
def FRONTENDS : List String := ["onnx", "paddle", "tf", "tf_lite", "pytorch", "ir", "jax"]

/-- PLUGINS of build.py. -/
def PLUGINS : List String :=
  ["intel_cpu", "intel_gpu", "intel_npu", "hetero", "multi", "auto", "template", "auto_batch", "proxy"]

/-- argparse dest normalization of a long flag name: every hyphen becomes an
underscore (str.replace applied to the flag spelling). -/
def pyDest (s : String) : String :=
  String.mk (s.toList.map (fun c => if c = '-' then '_' else c))

/-- Python str.upper() on the ASCII names used by build.py. -/
def pyUpper (s : String) : String := String.mk (s.toList.map Char.toUpper)

/-! ## The argparse namespace -/

/-- The argparse namespace produced by the build.py parser: one field per
parser dest, under the value discipline of the parser actions (count and int
options as optional ints, store_true flags as bools, choices and paths as
optional strings, the REMAINDER as a string list).  The tri-state
enable-FLAG options are one function keyed by the ON_OFF_FLAGS spelling;
imp_file holds the dest named import_file in the source. -/
@[ext] structure Args where
  configure : Option Int := Option.none
  build_type : String := "Release"
  parallel : Option Int := Option.none
  enable : String → Option String := fun _ => Option.none
  plugins : Option (List String) := Option.none
  frontends : Option (List String) := Option.none
  enable_cc : Option String := Option.none
  cc_stat_file : Option String := Option.none
  threading : String := "TBB"
  extra_modules : Option String := Option.none
  opencv_dir : Option String := Option.none
  output_root : Option String := Option.none
  use_ccache : Bool := true
  arch : Option String := Option.none
  gprof : Bool := false
  linux_perf : Bool := false
  native_compilation : Bool := false
  use_mold : Bool := false
  use_ninja : Bool := false
  use_clang : Option String := Option.none
  verbose : Int := 1
  quiet : Bool := false
  completion : Option String := Option.none
  export_file : Option String := Option.none
  imp_file : Option String := Option.none
  ignore_config : Bool := false
  target : List String := []

/-- An Args namespace with every option at its parser default. -/
def defaultArgs : Args := {}

/-! ## The configuration synthesizer: _collect_cmake_defs -/

/-- The exceptions _collect_cmake_defs can raise: the ValueError of the
generic enable loop (invalid tri-state value) and the KeyError of a failed
fixed-table lookup (san_map or toolchains). -/
inductive PyErr where
  | valueError (flag value : String)
  | keyError (key : String)
deriving DecidableEq, Repr

/-- The synthesized definition set: an ordered mapping from CMake variable
name to string value. -/
abbrev Defs := List (String × String)

/-- The define name ENABLE_ + suffix.upper() emitted by the generic loop. -/
def enableKey (suffix : String) : String := "ENABLE_" ++ pyUpper suffix

/-- The (dest suffix, value) pairs scanned by the generic enable loop of
_collect_cmake_defs, in namespace insertion order: the ON_OFF_FLAGS
tri-states and then enable_cc.  The frontend and plugin dests that the loop
skips are never present in the namespace, because the parser does not define
those arguments. -/
def enableItems (a : Args) : List (String × Option String) :=
  ON_OFF_FLAGS.map (fun f => (pyDest f, a.enable f)) ++ [("cc", a.enable_cc)]

/-- One iteration of the generic enable loop: an on / off value emits
ENABLE_&lt;SUFFIX upper&gt; = value.upper(); any other non-None value raises
ValueError; None is skipped. -/
def genericStep (d : Defs) (item : String × Option String) : Except PyErr Defs :=
  match item.2 with
  | Option.none => Except.ok d
  | some v =>
    if v = "on" ∨ v = "off" then Except.ok (dset d (enableKey item.1) (pyUpper v))
    else Except.error (PyErr.valueError item.1 v)

/-- The generic enable loop of _collect_cmake_defs: process the items in
order, stopping at the first raised ValueError. -/
def enableLoop (d : Defs) : List (String × Option String) → Except PyErr Defs
  | [] => Except.ok d
  | item :: rest =>
    match genericStep d item with
    | Except.error e => Except.error e
    | Except.ok d1 => enableLoop d1 rest

/-- The san_map table of _collect_cmake_defs. -/
def san_map : Defs :=
  [("asan", "ENABLE_SANITIZER"), ("tsan", "ENABLE_THREAD_SANITIZER"),
   ("usan", "ENABLE_UB_SANITIZER"), ("msan", "ENABLE_MEMORY_SANITIZER")]

/-- Sanitizer block of _collect_cmake_defs: when enable_sanitizer is truthy,
its value is looked up in san_map (a missing key raises KeyError), the
resulting define is set to ON and BUILD_SHARED_LIBS is forced OFF. -/
def sanitizerStep (a : Args) (d : Defs) : Except PyErr Defs :=
  match a.enable "sanitizer" with
  | Option.none => Except.ok d
  | some v =>
    if v = "" then Except.ok d
    else
      match dlookup san_map v with
      | some key => Except.ok (dset (dset d key "ON") "BUILD_SHARED_LIBS" "OFF")
      | Option.none => Except.error (PyErr.keyError v)

/-- getattr(args, enable_&lt;fe&gt;_frontend, False): the parser never defines
these arguments, so the attribute is always absent and the getattr default
False is always returned. -/
def enableFrontendAttr (_a : Args) (_fe : String) : Bool := false

/-- getattr(args, enable_&lt;pl&gt;_plugin, False): likewise always False. -/
def enablePluginAttr (_a : Args) (_pl : String) : Bool := false

/-- Membership of a frontend in the fe_list set built by
_collect_cmake_defs (union of the multi-select list and the individual
attributes, the latter always absent). -/
def feSelected (a : Args) (fe : String) : Bool :=
  (match a.frontends with
   | some l => decide (fe ∈ l)
   | Option.none => false) || enableFrontendAttr a fe

/-- Membership of a plugin in the pl_list set built by _collect_cmake_defs. -/
def plSelected (a : Args) (pl : String) : Bool :=
  (match a.plugins with
   | some l => decide (pl ∈ l)
   | Option.none => false) || enablePluginAttr a pl

/-- Frontend enumeration of _collect_cmake_defs: one ENABLE_OV_*_FRONTEND
define per known frontend, ON when selected, OFF otherwise. -/
def frontendStep (a : Args) (d : Defs) : Defs :=
  FRONTENDS.foldl
    (fun acc fe => dset acc ("ENABLE_OV_" ++ pyUpper fe ++ "_FRONTEND")
      (if feSelected a fe then "ON" else "OFF")) d

/-- Plugin enumeration of _collect_cmake_defs: one ENABLE_* define per known
plugin. -/
def pluginStep (a : Args) (d : Defs) : Defs :=
  PLUGINS.foldl
    (fun acc pl => dset acc ("ENABLE_" ++ pyUpper pl)
      (if plSelected a pl then "ON" else "OFF")) d

/-- Conditional-compilation block of _collect_cmake_defs.  It is reachable
only with enable_cc equal to None, on or off, because any other value
already raised in the generic loop; a None cc_stat_file would be
interpolated as the string None downstream. -/
def ccStep (a : Args) (d : Defs) : Defs :=
  if a.enable_cc = some "collect" then
    dset (dset d "SELECTIVE_BUILD" "COLLECT") "ENABLE_PROFILING_ITT" "ON"
  else if a.enable_cc = some "apply" then
    dset (dset (dset d "SELECTIVE_BUILD" "ON") "ENABLE_PROFILING_ITT" "OFF")
      "SELECTIVE_BUILD_STAT" ((a.cc_stat_file).getD "None")
  else d

/-- Mold-linker block of _collect_cmake_defs. -/
def moldStep (a : Args) (d : Defs) : Defs :=
  if a.use_mold then
    dset (dset (dset d "CMAKE_EXE_LINKER_FLAGS" "-fuse-ld=mold")
      "CMAKE_SHARED_LINKER_FLAGS" "-fuse-ld=mold") "CMAKE_MODULE_LINKER_FLAGS" "-fuse-ld=mold"
  else d

/-- The toolchains table of _collect_cmake_defs. -/
def toolchains : Defs :=
  [("x86", "cmake/toolchains/x86_64.linux.toolchain.cmake"),
   ("arm", "cmake/arm64.toolchain.cmake"),
   ("arm32", "cmake/arm.toolchain.cmake"),
   ("riscv", "cmake/toolchains/riscv64-100-xuantie-gnu.toolchain.cmake")]

/-- Architecture block of _collect_cmake_defs: a truthy arch selects a
toolchain file (missing keys raise KeyError) and riscv adds the fixed
toolchain root. -/
def archStep (a : Args) (d : Defs) : Except PyErr Defs :=
  match a.arch with
  | Option.none => Except.ok d
  | some ar =>
    if ar = "" then Except.ok d
    else
      match dlookup toolchains ar with
      | some tc =>
        Except.ok (if ar = "riscv" then
            dset (dset d "CMAKE_TOOLCHAIN_FILE" tc) "RISCV_TOOLCHAIN_ROOT" "/opt/riscv"
          else dset d "CMAKE_TOOLCHAIN_FILE" tc)
      | Option.none => Except.error (PyErr.keyError ar)

/-- _collect_cmake_defs, with root standing for the ROOT working directory
captured at module load. -/
def collectCmakeDefs (root : String) (a : Args) : Except PyErr Defs :=
  match enableLoop
      [("CMAKE_BUILD_TYPE", a.build_type), ("CMAKE_EXPORT_COMPILE_COMMANDS", "ON"),
       ("OUTPUT_ROOT", (a.output_root).getD root)] (enableItems a) with
  | Except.error e => Except.error e
  | Except.ok d1 =>
    match sanitizerStep a (dset d1 "THREADING" a.threading) with
    | Except.error e => Except.error e
    | Except.ok d3 =>
      archStep a (moldStep a (ccStep a (pluginStep a (frontendStep a
        (if a.use_ccache then dset d3 "CMAKE_CXX_COMPILER_LAUNCHER" "ccache" else d3)))))

/-- Boolean success test for the synthesizer result. -/
def defsOk : Except PyErr Defs → Bool
  | Except.ok _ => true
  | Except.error _ => false

/-! ## _compute_build_dir -/

/-- _compute_build_dir: the build-directory string.  The arch suffix tests
for None (not truthiness); the sanitizer and debug suffixes use Python
truthiness of the tri-state values. -/
def computeBuildDir (a : Args) : String :=
  let s0 := match a.arch with
    | some ar => "_" ++ ar
    | Option.none => ""
  let s1 := if a.threading = "OMP" then s0 ++ "_omp" else s0
  let s2 := if a.native_compilation then s1 ++ "_native_comp" else s1
  let s3 := match a.enable "sanitizer" with
    | some v => if v = "" then s2 else s2 ++ "_" ++ v
    | Option.none => s2
  let s4 := match a.enable "openvino-debug" with
    | some v => if v = "" then s3 else s3 ++ "_ov_debug"
    | Option.none => s3
  "build_" ++ a.build_type ++ s4

/-! ## _initial_env -/

/-- The process environment as an association list. -/
abbrev Env := List (String × String)

/-- os.environ[k] = os.environ.get(k, empty) + suffix. -/
def envAppend (e : Env) (k suffix : String) : Env :=
  dset e k (((dlookup e k).getD "") ++ suffix)

/-- os.environ.setdefault. -/
def envSetdefault (e : Env) (k v : String) : Env :=
  if (dlookup e k).isSome then e else dset e k v

/-- Ccache block of _initial_env: set the cache directory and size only
when absent. -/
def ccacheEnvStep (home : String) (a : Args) (e : Env) : Env :=
  if a.use_ccache then
    envSetdefault (envSetdefault e "CCACHE_DIR" (home ++ "/.ccache")) "CCACHE_MAXSIZE" "50G"
  else e

/-- Native-compilation block of _initial_env: append -march=native to the
compiler and linker flag variables. -/
def nativeEnvStep (a : Args) (e : Env) : Env :=
  if a.native_compilation then
    envAppend (envAppend (envAppend e "CFLAGS" " -march=native") "CXXFLAGS" " -march=native")
      "LDFLAGS" " -march=native"
  else e

/-- Linux-perf block of _initial_env. -/
def perfEnvStep (a : Args) (e : Env) : Env :=
  if a.linux_perf then
    envAppend (envAppend (envAppend e "CFLAGS" " -fno-omit-frame-pointer -g -ggdb")
      "CXXFLAGS" " -fno-omit-frame-pointer -g -ggdb") "LDFLAGS" " -g"
  else e

/-- Gprof block of _initial_env. -/
def gprofEnvStep (a : Args) (e : Env) : Env :=
  if a.gprof then
    envAppend (envAppend (envAppend e "CFLAGS" " -fno-omit-frame-pointer -g -pg")
      "CXXFLAGS" " -fno-omit-frame-pointer -g -pg") "LDFLAGS" " -g -pg"
  else e

/-- Clang-selection block of _initial_env. -/
def clangEnvStep (a : Args) (e : Env) : Env :=
  match a.use_clang with
  | some ver => dset (dset e "CC" ("/usr/bin/clang-" ++ ver)) "CXX" ("/usr/bin/clang++-" ++ ver)
  | Option.none => e

/-- _initial_env as a transformation of the process environment, with home
standing for Path.home(). -/
def initialEnv (home : String) (a : Args) (e : Env) : Env :=
  clangEnvStep a (gprofEnvStep a (perfEnvStep a (nativeEnvStep a (ccacheEnvStep home a e))))

/-! ## run(): control flow and process trace -/

/-- The two external invocations run can make. -/
inductive Phase where
  | configure
  | build
deriving DecidableEq, Repr

/-- How a run terminates.  exported and exportFailed are the export branch
(return, or sys.exit 1 on a write error); completionEmitted is the
completion branch (sys.exit 0); validationError is the apply-without-stat
check (sys.exit 1); cmakeMissing is the missing-cmake check (sys.exit 1);
raised is an uncaught exception from _collect_cmake_defs (process exit 1);
childFailed mirrors the exit code of a failed child process. -/
inductive RunOutcome where
  | exported
  | exportFailed
  | completionEmitted
  | validationError
  | cmakeMissing
  | raised (e : PyErr)
  | childFailed (code : Nat)
  | success
deriving DecidableEq, Repr

/-- The outside world run interacts with: which executables are found, the
exit codes the child processes would return, and whether the export file is
writable. -/
structure RunEnv where
  cmakeFound : Bool := true
  configureExit : Nat := 0
  buildExit : Nat := 0
  exportWriteOk : Bool := true

/-- Result of run: the external processes spawned, in order, and the
terminal outcome. -/
structure RunResult where
  spawned : List Phase
  outcome : RunOutcome
deriving DecidableEq, Repr

/-- The argparse-sentinel strip of run(): drop a leading empty target when
the remainder still holds the separator. -/
def stripTarget (a : Args) : Args :=
  if a.target.contains "--" ∧ a.target.head? = some "" then { a with target := a.target.tail }
  else a

/-- Quiet overrules verbosity in run(). -/
def applyQuiet (a : Args) : Args := if a.quiet then { a with verbose := 0 } else a

/-- run() of build.py, after the argument merge: export branch, completion
branch, apply-mode validation, target-sentinel strip, cmake lookup, quiet
overruling verbosity, CMake command construction (which evaluates
_collect_cmake_defs and can raise), the optional configure phase, the
configure-only early return, and the build phase.  Directory creation and
environment mutation have no bearing on the trace and are elided. -/
def run (root : String) (a : Args) (env : RunEnv) : RunResult :=
  if pyTruthyOpt a.export_file then
    { spawned := [],
      outcome := if env.exportWriteOk then RunOutcome.exported else RunOutcome.exportFailed }
  else if pyTruthyOpt a.completion then
    { spawned := [], outcome := RunOutcome.completionEmitted }
  else if a.enable_cc = some "apply" ∧ ¬ pyTruthyOpt a.cc_stat_file then
    { spawned := [], outcome := RunOutcome.validationError }
  else if ¬ env.cmakeFound then { spawned := [], outcome := RunOutcome.cmakeMissing }
  else
    match collectCmakeDefs root (applyQuiet (stripTarget a)) with
    | Except.error e => { spawned := [], outcome := RunOutcome.raised e }
    | Except.ok _ =>
        match (applyQuiet (stripTarget a)).configure with
        | some n =>
          if n > 0 then
            if env.configureExit ≠ 0 then
              { spawned := [Phase.configure], outcome := RunOutcome.childFailed env.configureExit }
            else if n > 1 then
              { spawned := [Phase.configure], outcome := RunOutcome.success }
            else if env.buildExit ≠ 0 then
              { spawned := [Phase.configure, Phase.build],
                outcome := RunOutcome.childFailed env.buildExit }
            else
              { spawned := [Phase.configure, Phase.build], outcome := RunOutcome.success }
          else if env.buildExit ≠ 0 then
            { spawned := [Phase.build], outcome := RunOutcome.childFailed env.buildExit }
          else { spawned := [Phase.build], outcome := RunOutcome.success }
        | Option.none =>
          if env.buildExit ≠ 0 then
            { spawned := [Phase.build], outcome := RunOutcome.childFailed env.buildExit }
          else { spawned := [Phase.build], outcome := RunOutcome.success }

/-! ## The configuration-layer loader: _load_config_file -/

/-- Diagnostics printed by the loader: the warning for an unreadable
best-effort file and the per-key warning for an unknown option. -/
inductive Diag where
  | loadFailure
  | unknownOption (key : String)
deriving DecidableEq, Repr

/-- What the loader returns when it does not exit: the validated mapping and
the warnings it printed. -/
structure LoadedConfig where
  config : List (String × PVal)
  warnings : List Diag
deriving DecidableEq, Repr

/-- Result of _load_config_file: either sys.exit with a code or a loaded
configuration. -/
inductive LoadResult where
  | exited (code : Nat)
  | ok (lc : LoadedConfig)
deriving DecidableEq, Repr

/-- Boolean test for the exit branch of a load result. -/
def LoadResult.isExited : LoadResult → Bool
  | LoadResult.exited _ => true
  | LoadResult.ok _ => false

/-- _load_config_file: readResult stands for opening and YAML-parsing the
file.  A read or parse failure exits 1 when is_error_fatal, otherwise warns
and yields an empty mapping.  Each loaded key is kept when it is a valid
parser dest and otherwise dropped with a warning; unknown keys never abort,
whichever layer is being read. -/
def loadConfigFile (readResult : Except String (List (String × PVal)))
    (validDests : List String) (isErrorFatal : Bool) : LoadResult :=
  match readResult with
  | Except.error _ =>
    if isErrorFatal then LoadResult.exited 1
    else LoadResult.ok { config := [], warnings := [Diag.loadFailure] }
  | Except.ok loaded =>
    LoadResult.ok (loaded.foldl
      (fun acc kv =>
        if kv.1 ∈ validDests then { acc with config := dset acc.config kv.1 kv.2 }
        else { acc with warnings := acc.warnings ++ [Diag.unknownOption kv.1] })
      { config := [], warnings := [] })

/-! ## The parser surface: dests, defaults and option strings -/

/-- The dests of the build.py parser that populate the namespace, in action
order: configure counter, build type, parallelism, the tri-state enable
dests, the multi-select lists, conditional compilation, threading, paths,
ccache, architecture, profiling and linker toggles, verbosity, completion,
export and import, and the target remainder. -/
def parserDests : List String :=
  ["configure", "build_type", "parallel"] ++
  ON_OFF_FLAGS.map (fun f => "enable_" ++ pyDest f) ++
  ["plugins", "frontends", "enable_cc", "cc_stat_file", "threading",
   "extra_modules", "opencv_dir", "output_root", "use_ccache", "arch",
   "gprof", "linux_perf", "native_compilation", "use_mold", "use_ninja",
   "use_clang", "verbose", "quiet", "completion", "export_file",
   "import_file", "ignore_config", "target"]

/-- The dest set the loader validates keys against: every parser action dest,
including the help action. -/
def parserActionDests : List String := "help" :: parserDests

/-- Every option string accepted by the build.py parser. -/
def parserOptionStrings : List String :=
  ["-h", "--help", "-c", "-b", "--build-type", "-j", "--parallel"] ++
  ON_OFF_FLAGS.map (fun f => "--enable-" ++ f) ++
  ["--plugins", "--frontends", "--enable-cc", "--cc-stat-file", "--threading",
   "--extra-modules", "--opencv-dir", "--output-root", "--use-ccache",
   "-a", "--arch", "-u", "--gprof", "--linux-perf", "--native-compilation",
   "--use-mold", "--use-ninja", "--use-clang", "-v", "-q", "--quiet",
   "--completion", "--export", "--import", "--ignore-config"]

/-- The schema defaults declared by the parser actions, one per dest. -/
def schemaDefaultsList : List (String × PVal) :=
  [("configure", PVal.none), ("build_type", PVal.str "Release"), ("parallel", PVal.none)] ++
  ON_OFF_FLAGS.map (fun f => ("enable_" ++ pyDest f, PVal.none)) ++
  [("plugins", PVal.none), ("frontends", PVal.none), ("enable_cc", PVal.none),
   ("cc_stat_file", PVal.none), ("threading", PVal.str "TBB"),
   ("extra_modules", PVal.none), ("opencv_dir", PVal.none), ("output_root", PVal.none),
   ("use_ccache", PVal.bool true), ("arch", PVal.none), ("gprof", PVal.bool false),
   ("linux_perf", PVal.bool false), ("native_compilation", PVal.bool false),
   ("use_mold", PVal.bool false), ("use_ninja", PVal.bool false), ("use_clang", PVal.none),
   ("verbose", PVal.int 1), ("quiet", PVal.bool false), ("completion", PVal.none),
   ("export_file", PVal.none), ("import_file", PVal.none),
   ("ignore_config", PVal.bool false), ("target", PVal.strList [])]

/-- The schema default of a dest. -/
def schemaDefault (d : String) : PVal := (dlookup schemaDefaultsList d).getD PVal.none

/-! ## Two-phase parsing: import_if_provided -/

/-- A command line, abstracted to parse results: the dests explicitly
supplied with their parsed values (always including export_file when the
export flag is passed, never containing the two flags the first phase
extracts), plus the first-phase import flag (impFile, with the const .build
when given bare) and ignore-config flag. -/
structure CmdLine where
  supplied : List (String × PVal)
  impFile : Option String
  ignoreConfig : Bool

/-- The dests the export engine detects as explicitly supplied on the
command line (an option string of the action occurs in sys.argv). -/
def cliDetectedDests (cmd : CmdLine) : List String :=
  keysOf cmd.supplied ++
  (if cmd.impFile.isSome then ["import_file"] else []) ++
  (if cmd.ignoreConfig then ["ignore_config"] else [])

/-- The value the parsed namespace holds for a dest, given the set_defaults
mapping loaded from the layers: the command-line value when supplied, else
the layer default, else the schema default.  The target remainder ignores
defaults and is restored afterwards when empty; import_file and
ignore_config are overwritten with the first-phase flags at the end
of import_if_provided. -/
def parsedValue (cmd : CmdLine) (defaults : List (String × PVal)) (d : String) : PVal :=
  if d = "target" then
    if (dlookup defaults "target").isSome ∧
        pyFalsy ((dlookup cmd.supplied "target").getD (PVal.strList [])) then
      (dlookup defaults "target").getD ((dlookup cmd.supplied "target").getD (PVal.strList []))
    else (dlookup cmd.supplied "target").getD (PVal.strList [])
  else if d = "import_file" then
    match cmd.impFile with
    | some s => PVal.str s
    | Option.none => PVal.none
  else if d = "ignore_config" then PVal.bool cmd.ignoreConfig
  else (dlookup cmd.supplied d).getD ((dlookup defaults d).getD (schemaDefault d))

/-- Result of the merge-and-parse phase: the parsed namespace as a mapping
over parserDests, plus the layer defaults and diagnostics. -/
inductive MergeResult where
  | exited (code : Nat)
  | ok (argsMap : List (String × PVal)) (defaults : List (String × PVal)) (diags : List Diag)
deriving DecidableEq, Repr

/-- The best-effort .build layer of import_if_provided: skipped when
ignore-config is passed or the file does not exist, loaded non-fatally
otherwise. -/
def bestEffortLayer (cmd : CmdLine)
    (buildFile : Option (Except String (List (String × PVal)))) :
    List (String × PVal) × List Diag :=
  if cmd.ignoreConfig then ([], [])
  else
    match buildFile with
    | Option.none => ([], [])
    | some readResult =>
      match loadConfigFile readResult parserActionDests false with
      | LoadResult.exited _ => ([], [])
      | LoadResult.ok lc => (lc.config, lc.warnings)

/-- import_if_provided of build.py: load .build as a best-effort layer
unless ignore-config is passed and the file exists (buildFile carries its
read result when it exists), overlay the mandatory import layer when
the import flag is passed (importRead carries its read result), feed the
merged mapping to set_defaults, and parse. -/
def mergeAndParse (cmd : CmdLine) (buildFile : Option (Except String (List (String × PVal))))
    (importRead : Except String (List (String × PVal))) : MergeResult :=
  match cmd.impFile with
  | Option.none =>
    MergeResult.ok
      (parserDests.map (fun d => (d, parsedValue cmd (bestEffortLayer cmd buildFile).1 d)))
      (bestEffortLayer cmd buildFile).1 (bestEffortLayer cmd buildFile).2
  | some _ =>
    match loadConfigFile importRead parserActionDests true with
    | LoadResult.exited n => MergeResult.exited n
    | LoadResult.ok lc =>
      MergeResult.ok
        (parserDests.map (fun d =>
          (d, parsedValue cmd (dUpdate (bestEffortLayer cmd buildFile).1 lc.config) d)))
        (dUpdate (bestEffortLayer cmd buildFile).1 lc.config)
        ((bestEffortLayer cmd buildFile).2 ++ lc.warnings)

/-! ## The export engine: export_args -/

/-- The provenance filter of export_args: a dest is serialized when it was
provided by a layer file or detected on the command line, and is not
export_file or import_file itself. -/
def exportPred (defaults : List (String × PVal)) (cliDests : List String) (d : String) :
    Bool :=
  decide (d ≠ "export_file" ∧ d ≠ "import_file" ∧
    (d ∈ keysOf defaults ∨ d ∈ cliDests))

/-- export_args: serialize the namespace entries whose dest was provided by
a layer file or detected on the command line, dropping export_file
and import_file themselves. -/
def exportArgs (argsMap defaults : List (String × PVal)) (cliDests : List String) :
    List (String × PVal) :=
  argsMap.filter (fun kv => exportPred defaults cliDests kv.1)

/-- One export run: merge and parse, then serialize, returning the namespace
mapping and the exported document (none when the import layer failed to
load). -/
def runExportPhase (cmd : CmdLine) (buildFile : Option (Except String (List (String × PVal))))
    (importRead : Except String (List (String × PVal))) :
    Option (List (String × PVal) × List (String × PVal)) :=
  match mergeAndParse cmd buildFile importRead with
  | MergeResult.exited _ => Option.none
  | MergeResult.ok m defaults _ => some (m, exportArgs m defaults (cliDetectedDests cmd))

/-! ## Decoding a namespace mapping into the typed namespace -/

/-- Read a string-typed attribute. -/
def pvStr : PVal → Option String
  | PVal.str s => some s
  | _ => Option.none

/-- Read an int-typed attribute. -/
def pvInt : PVal → Option Int
  | PVal.int n => some n
  | _ => Option.none

/-- Read a list-typed attribute. -/
def pvList : PVal → Option (List String)
  | PVal.strList xs => some xs
  | _ => Option.none

/-- Python truthiness of a value. -/
def pvTruthy (v : PVal) : Bool := !(pyFalsy v)

/-- The attribute value of a dest in a namespace mapping, falling back to
the schema default. -/
def mval (m : List (String × PVal)) (d : String) : PVal :=
  (dlookup m d).getD (schemaDefault d)

/-- View a namespace mapping as the typed namespace consumed by the
synthesizer, under the value discipline of the parser (ill-typed layer
values read as the schema default; truthiness-tested flags decode through
Python truthiness). -/
def decodeArgs (m : List (String × PVal)) : Args where
  configure := pvInt (mval m "configure")
  build_type := (pvStr (mval m "build_type")).getD "Release"
  parallel := pvInt (mval m "parallel")
  enable := fun f =>
    if f ∈ ON_OFF_FLAGS then pvStr (mval m ("enable_" ++ pyDest f)) else Option.none
  plugins := pvList (mval m "plugins")
  frontends := pvList (mval m "frontends")
  enable_cc := pvStr (mval m "enable_cc")
  cc_stat_file := pvStr (mval m "cc_stat_file")
  threading := (pvStr (mval m "threading")).getD "TBB"
  extra_modules := pvStr (mval m "extra_modules")
  opencv_dir := pvStr (mval m "opencv_dir")
  output_root := pvStr (mval m "output_root")
  use_ccache := pvTruthy (mval m "use_ccache")
  arch := pvStr (mval m "arch")
  gprof := pvTruthy (mval m "gprof")
  linux_perf := pvTruthy (mval m "linux_perf")
  native_compilation := pvTruthy (mval m "native_compilation")
  use_mold := pvTruthy (mval m "use_mold")
  use_ninja := pvTruthy (mval m "use_ninja")
  use_clang := pvStr (mval m "use_clang")
  verbose := (pvInt (mval m "verbose")).getD 1
  quiet := pvTruthy (mval m "quiet")
  completion := pvStr (mval m "completion")
  export_file := pvStr (mval m "export_file")
  imp_file := pvStr (mval m "import_file")
  ignore_config := pvTruthy (mval m "ignore_config")
  target := (pvList (mval m "target")).getD []

/-! ## Dictionary lemmas -/

@[simp] theorem keysOf_nil {β : Type} : keysOf ([] : List (String × β)) = [] := rfl

@[simp] theorem keysOf_cons {β : Type} (p : String × β) (d : List (String × β)) :
    keysOf (p :: d) = p.1 :: keysOf d := rfl

@[simp] theorem keysOf_append {β : Type} (d e : List (String × β)) :
    keysOf (d ++ e) = keysOf d ++ keysOf e := by
  simp [keysOf]

@[simp] theorem dlookup_nil {β : Type} (k : String) :
    dlookup ([] : List (String × β)) k = Option.none := rfl

theorem dlookup_cons {β : Type} (p : String × β) (d : List (String × β)) (k : String) :
    dlookup (p :: d) k = if p.1 = k then some p.2 else dlookup d k := rfl

theorem dlookup_eq_none {β : Type} {d : List (String × β)} {k : String} :
    dlookup d k = Option.none ↔ k ∉ keysOf d := by
  induction d with
  | nil => simp
  | cons p rest ih =>
    by_cases h : p.1 = k
    · subst h; simp [dlookup_cons]
    · have : ¬ (k = p.1) := fun he => h he.symm
      simp [dlookup_cons, h, ih, this]

theorem dlookup_append {β : Type} (d e : List (String × β)) (k : String) :
    dlookup (d ++ e) k =
      match dlookup d k with
      | some v => some v
      | Option.none => dlookup e k := by
  induction d with
  | nil => simp
  | cons p rest ih =>
    by_cases h : p.1 = k <;> simp [dlookup_cons, h, ih]

theorem keysOf_setmap {β : Type} (d : List (String × β)) (k : String) (v : β) :
    keysOf (d.map (fun p => if p.1 = k then (k, v) else p)) = keysOf d := by
  induction d with
  | nil => rfl
  | cons p rest ih =>
    by_cases h : p.1 = k <;> simp [h, ih]

theorem keysOf_dset {β : Type} (d : List (String × β)) (k : String) (v : β) :
    keysOf (dset d k v) = if k ∈ keysOf d then keysOf d else keysOf d ++ [k] := by
  unfold dset
  by_cases h : k ∈ keysOf d
  · rw [if_pos h, if_pos h, keysOf_setmap]
  · rw [if_neg h, if_neg h]; simp

theorem nodup_keysOf_dset {β : Type} {d : List (String × β)} (hd : (keysOf d).Nodup)
    (k : String) (v : β) : (keysOf (dset d k v)).Nodup := by
  rw [keysOf_dset]
  by_cases h : k ∈ keysOf d
  · rwa [if_pos h]
  · rw [if_neg h]
    simp [List.nodup_append, hd, h]

theorem dlookup_setmap_self {β : Type} {d : List (String × β)} {k : String} (v : β)
    (h : k ∈ keysOf d) :
    dlookup (d.map (fun p => if p.1 = k then (k, v) else p)) k = some v := by
  induction d with
  | nil => simp at h
  | cons p rest ih =>
    by_cases hp : p.1 = k
    · simp [hp, dlookup_cons]
    · have hmem : k ∈ keysOf rest := by
        rcases (by simpa using h) with h1 | h1
        · exact absurd h1.symm hp
        · exact h1
      simp [hp, dlookup_cons, ih hmem]

theorem dlookup_dset_self {β : Type} (d : List (String × β)) (k : String) (v : β) :
    dlookup (dset d k v) k = some v := by
  unfold dset
  by_cases h : k ∈ keysOf d
  · rw [if_pos h]; exact dlookup_setmap_self v h
  · rw [if_neg h]
    rw [dlookup_append]
    rw [dlookup_eq_none.mpr h]
    simp [dlookup_cons]

theorem dlookup_setmap_ne {β : Type} (d : List (String × β)) {k k2 : String} (v : β)
    (h : k2 ≠ k) :
    dlookup (d.map (fun p => if p.1 = k then (k, v) else p)) k2 = dlookup d k2 := by
  induction d with
  | nil => rfl
  | cons p rest ih =>
    by_cases hp : p.1 = k
    · have hne : ¬ (k = k2) := fun he => h he.symm
      have hne2 : ¬ (p.1 = k2) := by rw [hp]; exact hne
      simp [hp, dlookup_cons, hne, hne2, ih]
    · by_cases hk2 : p.1 = k2 <;> simp [hp, dlookup_cons, hk2, h, ih]

theorem dlookup_dset_ne {β : Type} (d : List (String × β)) {k k2 : String} (v : β)
    (h : k2 ≠ k) : dlookup (dset d k v) k2 = dlookup d k2 := by
  unfold dset
  by_cases hm : k ∈ keysOf d
  · rw [if_pos hm]; exact dlookup_setmap_ne d v h
  · rw [if_neg hm, dlookup_append]
    have hone : dlookup [(k, v)] k2 = Option.none := by
      have : ¬ (k = k2) := fun he => h he.symm
      simp [dlookup_cons, this]
    rw [hone]
    cases hx : dlookup d k2 <;> simp

/-- Number of entries of a dictionary carrying a given key. -/
def countKey {β : Type} (d : List (String × β)) (k : String) : Nat :=
  (d.filter (fun p => decide (p.1 = k))).length

theorem filter_key_nil {β : Type} {d : List (String × β)} {k : String}
    (h : k ∉ keysOf d) : d.filter (fun p => decide (p.1 = k)) = [] := by
  induction d with
  | nil => rfl
  | cons p rest ih =>
    have h1 : ¬ (p.1 = k) := fun he => h (by simp [he])
    have h2 : k ∉ keysOf rest := fun hm => h (by simp [hm])
    simp [h1, ih h2]

theorem countKey_eq_one {β : Type} {d : List (String × β)} {k : String} {v : β}
    (hd : (keysOf d).Nodup) (h : dlookup d k = some v) : countKey d k = 1 := by
  induction d with
  | nil => simp [dlookup] at h
  | cons p rest ih =>
    by_cases hp : p.1 = k
    · have hnm : k ∉ keysOf rest := by
        have := (List.nodup_cons.mp (by simpa using hd)).1
        rwa [hp] at this
      unfold countKey
      simp [hp, filter_key_nil hnm]
    · have h2 : dlookup rest k = some v := by
        simpa [dlookup_cons, hp] using h
      have hd2 : (keysOf rest).Nodup := (List.nodup_cons.mp (by simpa using hd)).2
      have := ih hd2 h2
      unfold countKey at *
      simpa [hp] using this

/-! ## Lemmas on the generic enable loop -/

theorem genericStep_ok_none {d r : Defs} {s : String}
    (h : genericStep d (s, Option.none) = Except.ok r) : r = d := by
  simpa [genericStep] using h.symm

theorem genericStep_ok_some {d r : Defs} {s v : String}
    (h : genericStep d (s, some v) = Except.ok r) :
    (v = "on" ∨ v = "off") ∧ r = dset d (enableKey s) (pyUpper v) := by
  by_cases hv : v = "on" ∨ v = "off"
  · refine ⟨hv, ?_⟩
    have := h
    simp [genericStep, hv] at this
    exact this.symm
  · simp [genericStep, hv] at h

theorem genericStep_ok_lookup_ne {d r : Defs} {it : String × Option String}
    (h : genericStep d it = Except.ok r) {k : String} (hk : k ≠ enableKey it.1) :
    dlookup r k = dlookup d k := by
  obtain ⟨s, ov⟩ := it
  cases ov with
  | none => rw [genericStep_ok_none h]
  | some v =>
    obtain ⟨_, hr⟩ := genericStep_ok_some h
    rw [hr, dlookup_dset_ne _ _ hk]

theorem genericStep_ok_nodup {d r : Defs} {it : String × Option String}
    (h : genericStep d it = Except.ok r) (hd : (keysOf d).Nodup) :
    (keysOf r).Nodup := by
  obtain ⟨s, ov⟩ := it
  cases ov with
  | none => rw [genericStep_ok_none h]; exact hd
  | some v =>
    obtain ⟨_, hr⟩ := genericStep_ok_some h
    rw [hr]; exact nodup_keysOf_dset hd _ _

theorem enableLoop_ok_of_mem {xs : List (String × Option String)} {d r : Defs}
    (h : enableLoop d xs = Except.ok r) {x : String × Option String} (hx : x ∈ xs) :
    ∃ acc r2, genericStep acc x = Except.ok r2 := by
  induction xs generalizing d with
  | nil => cases hx
  | cons y ys ih =>
    rw [enableLoop] at h
    cases hstep : genericStep d y with
    | error e => rw [hstep] at h; cases h
    | ok d1 =>
      rw [hstep] at h
      cases hx with
      | head => exact ⟨d, d1, hstep⟩
      | tail _ hmem => exact ih h hmem

theorem enableLoop_lookup_ne {xs : List (String × Option String)} {d r : Defs}
    (h : enableLoop d xs = Except.ok r) {k : String}
    (hk : ∀ x ∈ xs, k ≠ enableKey x.1) :
    dlookup r k = dlookup d k := by
  induction xs generalizing d with
  | nil => rw [enableLoop] at h; cases h; rfl
  | cons y ys ih =>
    rw [enableLoop] at h
    cases hstep : genericStep d y with
    | error e => rw [hstep] at h; cases h
    | ok d1 =>
      rw [hstep] at h
      have h1 := ih h (fun x hx => hk x (List.mem_cons_of_mem _ hx))
      rw [h1, genericStep_ok_lookup_ne hstep (hk y (List.mem_cons_self _ _))]

theorem enableLoop_nodup {xs : List (String × Option String)} {d r : Defs}
    (h : enableLoop d xs = Except.ok r) (hd : (keysOf d).Nodup) : (keysOf r).Nodup := by
  induction xs generalizing d with
  | nil => rw [enableLoop] at h; cases h; exact hd
  | cons y ys ih =>
    rw [enableLoop] at h
    cases hstep : genericStep d y with
    | error e => rw [hstep] at h; cases h
    | ok d1 =>
      rw [hstep] at h
      exact ih h (genericStep_ok_nodup hstep hd)

theorem enableLoop_lookup_set {ys zs : List (String × Option String)} {d r : Defs}
    {s v : String}
    (h : enableLoop d (ys ++ (s, some v) :: zs) = Except.ok r)
    (hzs : ∀ z ∈ zs, enableKey z.1 ≠ enableKey s) :
    dlookup r (enableKey s) = some (pyUpper v) := by
  induction ys generalizing d with
  | nil =>
    rw [List.nil_append, enableLoop] at h
    cases hstep : genericStep d (s, some v) with
    | error e => rw [hstep] at h; cases h
    | ok d1 =>
      rw [hstep] at h
      obtain ⟨_, hd1⟩ := genericStep_ok_some hstep
      have hpr := enableLoop_lookup_ne h (k := enableKey s)
        (fun x hx => fun he => hzs x hx (by rw [he]))
      rw [hpr, hd1, dlookup_dset_self]
  | cons y ys2 ih =>
    rw [List.cons_append, enableLoop] at h
    cases hstep : genericStep d y with
    | error e => rw [hstep] at h; cases h
    | ok d1 =>
      rw [hstep] at h
      exact ih h

/-! ## Lemmas on the later synthesizer steps -/

theorem sanitizerStep_ok_lookup {a : Args} {d r : Defs}
    (h : sanitizerStep a d = Except.ok r)
    (hloop : ∀ v, a.enable "sanitizer" = some v → v = "on" ∨ v = "off") :
    r = d := by
  cases hsan : a.enable "sanitizer" with
  | none => simpa [sanitizerStep, hsan] using h.symm
  | some v =>
    rcases hloop v hsan with hv | hv <;>
      · subst hv; simp [sanitizerStep, hsan, san_map, dlookup_cons] at h

theorem foldl_dset_lookup_ne {α : Type} (l : List α) (keyfn : α → String)
    (valfn : α → String) (d : Defs) {k : String} (hk : ∀ x ∈ l, k ≠ keyfn x) :
    dlookup (l.foldl (fun acc x => dset acc (keyfn x) (valfn x)) d) k = dlookup d k := by
  induction l generalizing d with
  | nil => rfl
  | cons y ys ih =>
    rw [List.foldl_cons]
    rw [ih _ (fun x hx => hk x (List.mem_cons_of_mem _ hx))]
    exact dlookup_dset_ne d _ (hk y (List.mem_cons_self _ _))

theorem foldl_dset_nodup {α : Type} (l : List α) (keyfn : α → String)
    (valfn : α → String) {d : Defs} (hd : (keysOf d).Nodup) :
    (keysOf (l.foldl (fun acc x => dset acc (keyfn x) (valfn x)) d)).Nodup := by
  induction l generalizing d with
  | nil => exact hd
  | cons y ys ih =>
    rw [List.foldl_cons]
    exact ih (nodup_keysOf_dset hd _ _)

theorem frontendStep_lookup_ne {a : Args} {d : Defs} {k : String}
    (hk : ∀ fe ∈ FRONTENDS, k ≠ "ENABLE_OV_" ++ pyUpper fe ++ "_FRONTEND") :
    dlookup (frontendStep a d) k = dlookup d k :=
  foldl_dset_lookup_ne FRONTENDS _ _ d hk

theorem pluginStep_lookup_ne {a : Args} {d : Defs} {k : String}
    (hk : ∀ pl ∈ PLUGINS, k ≠ "ENABLE_" ++ pyUpper pl) :
    dlookup (pluginStep a d) k = dlookup d k :=
  foldl_dset_lookup_ne PLUGINS _ _ d hk

theorem ccStep_id {a : Args} (d : Defs)
    (h : a.enable_cc ≠ some "collect" ∧ a.enable_cc ≠ some "apply") :
    ccStep a d = d := by
  simp [ccStep, h.1, h.2]

theorem moldStep_lookup_ne {a : Args} {d : Defs} {k : String}
    (h1 : k ≠ "CMAKE_EXE_LINKER_FLAGS") (h2 : k ≠ "CMAKE_SHARED_LINKER_FLAGS")
    (h3 : k ≠ "CMAKE_MODULE_LINKER_FLAGS") :
    dlookup (moldStep a d) k = dlookup d k := by
  unfold moldStep
  by_cases hm : a.use_mold
  · simp only [hm, if_true]
    rw [dlookup_dset_ne _ _ h3, dlookup_dset_ne _ _ h2, dlookup_dset_ne _ _ h1]
  · simp [hm]

theorem archStep_ok_lookup_ne {a : Args} {d r : Defs}
    (h : archStep a d = Except.ok r) {k : String}
    (h1 : k ≠ "CMAKE_TOOLCHAIN_FILE") (h2 : k ≠ "RISCV_TOOLCHAIN_ROOT") :
    dlookup r k = dlookup d k := by
  unfold archStep at h
  split at h
  · cases h; rfl
  · split at h
    · cases h; rfl
    · split at h
      · cases h
        split
        · rw [dlookup_dset_ne _ _ h2, dlookup_dset_ne _ _ h1]
        · rw [dlookup_dset_ne _ _ h1]
      · cases h

theorem sanitizerStep_ok_nodup {a : Args} {d r : Defs}
    (h : sanitizerStep a d = Except.ok r) (hd : (keysOf d).Nodup) :
    (keysOf r).Nodup := by
  unfold sanitizerStep at h
  split at h
  · cases h; exact hd
  · split at h
    · cases h; exact hd
    · split at h
      · cases h
        exact nodup_keysOf_dset (nodup_keysOf_dset hd _ _) _ _
      · cases h

theorem ccStep_nodup {a : Args} {d : Defs} (hd : (keysOf d).Nodup) :
    (keysOf (ccStep a d)).Nodup := by
  unfold ccStep
  by_cases h1 : a.enable_cc = some "collect"
  · simp only [h1, if_true]
    exact nodup_keysOf_dset (nodup_keysOf_dset hd _ _) _ _
  · rw [if_neg h1]
    by_cases h2 : a.enable_cc = some "apply"
    · simp only [h2, if_true]
      exact nodup_keysOf_dset (nodup_keysOf_dset (nodup_keysOf_dset hd _ _) _ _) _ _
    · rw [if_neg h2]; exact hd

theorem moldStep_nodup {a : Args} {d : Defs} (hd : (keysOf d).Nodup) :
    (keysOf (moldStep a d)).Nodup := by
  unfold moldStep
  by_cases hm : a.use_mold
  · simp only [hm, if_true]
    exact nodup_keysOf_dset (nodup_keysOf_dset (nodup_keysOf_dset hd _ _) _ _) _ _
  · simp [hm, hd]

theorem archStep_ok_nodup {a : Args} {d r : Defs}
    (h : archStep a d = Except.ok r) (hd : (keysOf d).Nodup) : (keysOf r).Nodup := by
  unfold archStep at h
  split at h
  · cases h; exact hd
  · split at h
    · cases h; exact hd
    · split at h
      · cases h
        split
        · exact nodup_keysOf_dset (nodup_keysOf_dset hd _ _) _ _
        · exact nodup_keysOf_dset hd _ _
      · cases h

/-- Every successful synthesis yields a definition set with pairwise
distinct variable names: a Python dict cannot hold a duplicate key. -/
theorem collectCmakeDefs_nodup {root : String} {a : Args} {dfs : Defs}
    (h : collectCmakeDefs root a = Except.ok dfs) : (keysOf dfs).Nodup := by
  unfold collectCmakeDefs at h
  split at h
  · cases h
  · rename_i d1 hloop
    split at h
    · cases h
    · rename_i d3 hsan
      have hn0 : (keysOf
          [("CMAKE_BUILD_TYPE", a.build_type), ("CMAKE_EXPORT_COMPILE_COMMANDS", "ON"),
           ("OUTPUT_ROOT", (a.output_root).getD root)]).Nodup := by
        simp [keysOf]
      have hn1 := enableLoop_nodup hloop hn0
      have hn2 : (keysOf (dset d1 "THREADING" a.threading)).Nodup := nodup_keysOf_dset hn1 _ _
      have hn3 := sanitizerStep_ok_nodup hsan hn2
      have hn4 : (keysOf (if a.use_ccache then
          dset d3 "CMAKE_CXX_COMPILER_LAUNCHER" "ccache" else d3)).Nodup := by
        by_cases hc : a.use_ccache
        · simp only [hc, if_true]; exact nodup_keysOf_dset hn3 _ _
        · simp [hc, hn3]
      have hn5 : (keysOf (pluginStep a (frontendStep a (if a.use_ccache then
          dset d3 "CMAKE_CXX_COMPILER_LAUNCHER" "ccache" else d3)))).Nodup :=
        foldl_dset_nodup PLUGINS _ _ (foldl_dset_nodup FRONTENDS _ _ hn4)
      have hn6 := moldStep_nodup (a := a) (ccStep_nodup (a := a) hn5)
      exact archStep_ok_nodup h hn6

/-! ## Decidable facts about the option tables -/

/-- The define emitted for a tri-state flag collides with no other variable
name the synthesizer writes after the generic loop. -/
def flagKeyClear (k : String) : Bool :=
  !(k == "ENABLE_CC") && !(k == "THREADING") && !(k == "CMAKE_CXX_COMPILER_LAUNCHER") &&
  FRONTENDS.all (fun fe => !(k == "ENABLE_OV_" ++ pyUpper fe ++ "_FRONTEND")) &&
  PLUGINS.all (fun pl => !(k == "ENABLE_" ++ pyUpper pl)) &&
  !(k == "CMAKE_EXE_LINKER_FLAGS") && !(k == "CMAKE_SHARED_LINKER_FLAGS") &&
  !(k == "CMAKE_MODULE_LINKER_FLAGS") && !(k == "CMAKE_TOOLCHAIN_FILE") &&
  !(k == "RISCV_TOOLCHAIN_ROOT")

theorem onoff_keys_nodup : (ON_OFF_FLAGS.map (fun f => enableKey (pyDest f))).Nodup := by
  decide

theorem onoff_flagKeyClear :
    ON_OFF_FLAGS.all (fun f => flagKeyClear (enableKey (pyDest f))) = true := by
  decide

theorem flagKeyClear_spec {k : String} (h : flagKeyClear k = true) :
    k ≠ "ENABLE_CC" ∧ k ≠ "THREADING" ∧ k ≠ "CMAKE_CXX_COMPILER_LAUNCHER" ∧
    (∀ fe ∈ FRONTENDS, k ≠ "ENABLE_OV_" ++ pyUpper fe ++ "_FRONTEND") ∧
    (∀ pl ∈ PLUGINS, k ≠ "ENABLE_" ++ pyUpper pl) ∧
    k ≠ "CMAKE_EXE_LINKER_FLAGS" ∧ k ≠ "CMAKE_SHARED_LINKER_FLAGS" ∧
    k ≠ "CMAKE_MODULE_LINKER_FLAGS" ∧ k ≠ "CMAKE_TOOLCHAIN_FILE" ∧
    k ≠ "RISCV_TOOLCHAIN_ROOT" := by
  unfold flagKeyClear at h
  simp only [Bool.and_eq_true, Bool.not_eq_true', beq_eq_false_iff_ne, List.all_eq_true] at h
  obtain ⟨⟨⟨⟨⟨⟨⟨⟨⟨h1, h2⟩, h3⟩, h4⟩, h5⟩, h6⟩, h7⟩, h8⟩, h9⟩, h10⟩ := h
  exact ⟨h1, h2, h3, h4, h5, h6, h7, h8, h9, h10⟩

/-! ## Consequences of a successful synthesis -/

/-- A successful synthesis certifies that every tri-state value the
namespace holds is on or off (the generic loop would have raised
otherwise), including the enable_cc dest the loop also scans. -/
theorem collect_ok_flag_valid {root : String} {a : Args} {dfs : Defs}
    (h : collectCmakeDefs root a = Except.ok dfs) :
    (∀ f ∈ ON_OFF_FLAGS, ∀ w, a.enable f = some w → w = "on" ∨ w = "off") ∧
    (∀ w, a.enable_cc = some w → w = "on" ∨ w = "off") := by
  unfold collectCmakeDefs at h
  split at h
  · cases h
  · rename_i d1 hloop
    constructor
    · intro f hf w hw
      have hmem : (pyDest f, a.enable f) ∈ enableItems a := by
        unfold enableItems
        exact List.mem_append.mpr (Or.inl (List.mem_map.mpr ⟨f, hf, rfl⟩))
      obtain ⟨acc, r2, hstep⟩ := enableLoop_ok_of_mem hloop hmem
      rw [hw] at hstep
      exact (genericStep_ok_some hstep).1
    · intro w hw
      have hmem : (("cc" : String), a.enable_cc) ∈ enableItems a := by
        unfold enableItems
        exact List.mem_append.mpr (Or.inr (by simp))
      obtain ⟨acc, r2, hstep⟩ := enableLoop_ok_of_mem hloop hmem
      rw [hw] at hstep
      exact (genericStep_ok_some hstep).1

/-- A successful synthesis leaves the conditional-compilation block inert:
enable_cc cannot hold collect or apply (both raise in the generic loop). -/
theorem collect_ok_ccStep_id {root : String} {a : Args} {dfs : Defs}
    (h : collectCmakeDefs root a = Except.ok dfs) (d : Defs) : ccStep a d = d := by
  apply ccStep_id
  have hcc := (collect_ok_flag_valid h).2
  cases hc : a.enable_cc with
  | none => simp
  | some w =>
    rcases hcc w hc with hw | hw <;> subst hw <;> simp

/-- The define a valid tri-state flag emits survives to the final
definition set of a successful synthesis. -/
theorem collect_ok_lookup_flag {root : String} {a : Args} {dfs : Defs}
    (h : collectCmakeDefs root a = Except.ok dfs) {flag v : String}
    (hf : flag ∈ ON_OFF_FLAGS) (hval : a.enable flag = some v) :
    dlookup dfs (enableKey (pyDest flag)) = some (pyUpper v) := by
  have hccid := collect_ok_ccStep_id h
  have hvalid := (collect_ok_flag_valid h).1
  unfold collectCmakeDefs at h
  split at h
  · cases h
  · rename_i d1 hloop
    split at h
    · cases h
    · rename_i d3 hsan
      have hclear := flagKeyClear_spec (List.all_eq_true.mp onoff_flagKeyClear flag hf)
      obtain ⟨hcck, hth, hccl, hfe, hpl, hm1, hm2, hm3, ht1, ht2⟩ := hclear
      obtain ⟨ys, zs, hsplit⟩ := List.append_of_mem hf
      have hitems : enableItems a = (ys.map (fun f => (pyDest f, a.enable f))) ++
          (pyDest flag, some v) :: (zs.map (fun f => (pyDest f, a.enable f)) ++
            [(("cc" : String), a.enable_cc)]) := by
        unfold enableItems
        rw [hsplit]
        simp [hval]
      rw [hitems] at hloop
      have hnodup := onoff_keys_nodup
      rw [hsplit, List.map_append, List.map_cons] at hnodup
      have hnotmem : enableKey (pyDest flag) ∉
          zs.map (fun f => enableKey (pyDest f)) := by
        have h2 := hnodup.of_append_right
        exact (List.nodup_cons.mp h2).1
      have htail : ∀ z ∈ (zs.map (fun f => (pyDest f, a.enable f)) ++
          [(("cc" : String), a.enable_cc)]), enableKey z.1 ≠ enableKey (pyDest flag) := by
        intro z hz
        rcases List.mem_append.mp hz with hz1 | hz1
        · obtain ⟨f2, hf2, rfl⟩ := List.mem_map.mp hz1
          intro he
          exact hnotmem (he ▸ List.mem_map.mpr ⟨f2, hf2, rfl⟩)
        · have : z = (("cc" : String), a.enable_cc) := by simpa using hz1
          rw [this]
          intro he
          exact hcck he.symm
      have hlk1 := enableLoop_lookup_set hloop htail
      have hlk2 : dlookup (dset d1 "THREADING" a.threading) (enableKey (pyDest flag)) =
          some (pyUpper v) := by
        rw [dlookup_dset_ne _ _ hth]; exact hlk1
      have hd3 : d3 = dset d1 "THREADING" a.threading :=
        sanitizerStep_ok_lookup hsan (fun w hw => hvalid "sanitizer" (by decide) w hw)
      have hlk3 : dlookup d3 (enableKey (pyDest flag)) = some (pyUpper v) := by
        rw [hd3]; exact hlk2
      have hlk4 : dlookup (if a.use_ccache then
          dset d3 "CMAKE_CXX_COMPILER_LAUNCHER" "ccache" else d3)
          (enableKey (pyDest flag)) = some (pyUpper v) := by
        by_cases hc : a.use_ccache
        · simp only [hc, if_true]
          rw [dlookup_dset_ne _ _ hccl]; exact hlk3
        · simp only [hc, if_false]; exact hlk3
      have hlk5 : dlookup (pluginStep a (frontendStep a (if a.use_ccache then
          dset d3 "CMAKE_CXX_COMPILER_LAUNCHER" "ccache" else d3)))
          (enableKey (pyDest flag)) = some (pyUpper v) := by
        rw [pluginStep_lookup_ne hpl, frontendStep_lookup_ne hfe]; exact hlk4
      rw [archStep_ok_lookup_ne h ht1 ht2, hccid, moldStep_lookup_ne hm1 hm2 hm3]
      exact hlk5

/-- An invalid tri-state value makes the whole synthesis fail. -/
theorem collect_invalid_flag {root : String} {a : Args} {flag v : String}
    (hf : flag ∈ ON_OFF_FLAGS) (hval : a.enable flag = some v)
    (hbad : ¬ (v = "on" ∨ v = "off")) :
    defsOk (collectCmakeDefs root a) = false := by
  cases hres : collectCmakeDefs root a with
  | error e => rfl
  | ok dfs =>
    exact absurd ((collect_ok_flag_valid hres).1 flag hf v hval) hbad

/-- A successful synthesis is only possible with enable_sanitizer unset:
a set value either fails the generic loop or the san_map lookup. -/
theorem collect_ok_sanitizer_none {root : String} {a : Args} {dfs : Defs}
    (h : collectCmakeDefs root a = Except.ok dfs) :
    a.enable "sanitizer" = Option.none := by
  have hvalid := (collect_ok_flag_valid h).1
  unfold collectCmakeDefs at h
  split at h
  · cases h
  · rename_i d1 hloop
    split at h
    · cases h
    · rename_i d3 hsan
      cases hs : a.enable "sanitizer" with
      | none => rfl
      | some v =>
        exfalso
        rcases hvalid "sanitizer" (by decide) v hs with hv | hv <;>
          · subst hv
            simp [sanitizerStep, hs, san_map, dlookup_cons] at hsan

/-! ## Claim C1 (code_bug): sanitizer choice -/

/-- Claim C1: the spec says a chosen sanitizer is resolved through the
san_map table to one ENABLE_*_SANITIZER define plus BUILD_SHARED_LIBS OFF.
The code cannot do this for any value of enable_sanitizer: the parser admits
only on and off, which pass the generic loop and then raise KeyError in the
san_map lookup, while the san_map keys asan, tsan, usan and msan (reachable
only through a configuration layer) raise ValueError in the generic loop
first.  Hence synthesis fails whenever a sanitizer is chosen. -/
theorem sanitizerChoiceAlwaysRaises (root : String) (a : Args) (v : String)
    (hval : a.enable "sanitizer" = some v) :
    defsOk (collectCmakeDefs root a) = false := by
  cases hres : collectCmakeDefs root a with
  | error e => rfl
  | ok dfs =>
    exfalso
    rw [collect_ok_sanitizer_none hres] at hval
    cases hval

/-- The namespace produced by the command line enable-sanitizer on. -/
def sanOnArgs : Args := { enable := fun f => if f = "sanitizer" then some "on" else Option.none }

/-- Witness for C1 at the concrete input enable-sanitizer on. -/
theorem sanitizerChoiceAlwaysRaisesWitness :
    sanOnArgs.enable "sanitizer" = some "on" ∧
    defsOk (collectCmakeDefs "/repo" sanOnArgs) = false :=
  ⟨rfl, sanitizerChoiceAlwaysRaises "/repo" sanOnArgs "on" rfl⟩

/-! ## Claim C3 (corrected): tri-state synthesis -/

/-- Claim C3 as amended: for a tri-state flag holding a value, a successful
synthesis carries exactly one define ENABLE_ plus the upper-cased dest name,
bound to the upper-cased value; a set value other than on or off makes the
synthesis fail with ValueError.  (As literally stated the claim is false for
the flag sanitizer, whose on/off values abort the synthesis before any
definition set is produced, so the emission guarantee is conditional on the
synthesis succeeding.) -/
theorem tristateDefineSynthesis (root : String) (a : Args) (flag v : String) (dfs : Defs)
    (hf : flag ∈ ON_OFF_FLAGS) (hval : a.enable flag = some v) :
    (collectCmakeDefs root a = Except.ok dfs →
      dlookup dfs (enableKey (pyDest flag)) = some (pyUpper v) ∧
      countKey dfs (enableKey (pyDest flag)) = 1) ∧
    (¬ (v = "on" ∨ v = "off") → defsOk (collectCmakeDefs root a) = false) := by
  constructor
  · intro hok
    have h1 := collect_ok_lookup_flag hok hf hval
    exact ⟨h1, countKey_eq_one (collectCmakeDefs_nodup hok) h1⟩
  · intro hbad
    exact collect_invalid_flag hf hval hbad

/-- The namespace produced by the command line enable-python on. -/
def pythonOnArgs : Args := { enable := fun f => if f = "python" then some "on" else Option.none }

/-- The definition set of a successful synthesis (empty on failure). -/
def okDefs : Except PyErr Defs → Defs
  | Except.ok d => d
  | Except.error _ => []

/-- Witness for the amended C3 at enable-python on. -/
theorem tristateDefineSynthesisWitness :
    "python" ∈ ON_OFF_FLAGS ∧ pythonOnArgs.enable "python" = some "on" ∧
    ((collectCmakeDefs "/repo" pythonOnArgs =
        Except.ok (okDefs (collectCmakeDefs "/repo" pythonOnArgs)) →
      dlookup (okDefs (collectCmakeDefs "/repo" pythonOnArgs)) (enableKey (pyDest "python")) =
        some (pyUpper "on") ∧
      countKey (okDefs (collectCmakeDefs "/repo" pythonOnArgs)) (enableKey (pyDest "python")) = 1) ∧
    (¬ ("on" = "on" ∨ "on" = "off") →
      defsOk (collectCmakeDefs "/repo" pythonOnArgs) = false)) :=
  ⟨by decide, rfl,
   tristateDefineSynthesis "/repo" pythonOnArgs "python" "on"
     (okDefs (collectCmakeDefs "/repo" pythonOnArgs)) (by decide) rfl⟩

/-- Counterexample to C3 as stated: the tri-state flag sanitizer with the
valid value on yields no definition set at all (synthesis raises KeyError),
so no define ENABLE_SANITIZER = ON is emitted. -/
theorem tristateSanitizerCounterexample :
    "sanitizer" ∈ ON_OFF_FLAGS ∧ sanOnArgs.enable "sanitizer" = some "on" ∧
    collectCmakeDefs "/repo" sanOnArgs = Except.error (PyErr.keyError "on") :=
  ⟨by decide, rfl, rfl⟩

/-! ## Claim C6 (confirmed): the build directory -/

/-- Claim C6: the build-directory string depends only on the build type,
the architecture, the threading backend, the native-compilation flag, the
sanitizer value and the openvino-debug value; and the Debug-arm-OMP
scenario yields exactly build_Debug_arm_omp. -/
theorem buildDirPureFunction (a1 a2 : Args)
    (h1 : a1.build_type = a2.build_type) (h2 : a1.arch = a2.arch)
    (h3 : a1.threading = a2.threading)
    (h4 : a1.native_compilation = a2.native_compilation)
    (h5 : a1.enable "sanitizer" = a2.enable "sanitizer")
    (h6 : a1.enable "openvino-debug" = a2.enable "openvino-debug") :
    computeBuildDir a1 = computeBuildDir a2 ∧
    computeBuildDir { defaultArgs with
      build_type := "Debug", arch := some "arm", threading := "OMP" } =
      "build_Debug_arm_omp" := by
  constructor
  · simp only [computeBuildDir, h1, h2, h3, h4, h5, h6]
  · rfl

/-- A namespace differing from the defaults only in its target list. -/
def targetOneArgs : Args := { target := ["target1"] }

/-- A namespace differing in target list and other non-directory fields. -/
def targetTwoArgs : Args := { target := ["target2", "target3"], parallel := some 8, quiet := true }

/-- Witness for C6: two configurations differing only outside the
directory-relevant subset share a directory string, and the scenario
evaluates to build_Debug_arm_omp. -/
theorem buildDirPureFunctionWitness :
    computeBuildDir targetOneArgs = computeBuildDir targetTwoArgs ∧
    computeBuildDir { defaultArgs with
      build_type := "Debug", arch := some "arm", threading := "OMP" } =
      "build_Debug_arm_omp" :=
  buildDirPureFunction targetOneArgs targetTwoArgs rfl rfl rfl rfl rfl rfl

/-! ## Claim C4 (corrected): apply mode without a stat file -/

/-- Claim C4 as amended: with conditional-compilation mode apply and no
stat file, and neither an export file nor a completion request (either of
which diverts the run before the check), the run stops at the validation
error (sys.exit 1) with no external process spawned. -/
theorem applyWithoutStatFailsBeforeSpawn (root : String) (a : Args) (env : RunEnv)
    (h1 : a.enable_cc = some "apply") (h2 : pyTruthyOpt a.cc_stat_file = false)
    (h3 : pyTruthyOpt a.export_file = false) (h4 : pyTruthyOpt a.completion = false) :
    run root a env = { spawned := [], outcome := RunOutcome.validationError } := by
  unfold run
  rw [if_neg (by simp [h3]), if_neg (by simp [h4]), if_pos ⟨h1, by simp [h2]⟩]

/-- The namespace of enable-cc apply together with an export request. -/
def applyExportArgs : Args := { enable_cc := some "apply", export_file := some "cfg.yaml" }

/-- Counterexample to C4 as stated: the same apply-without-stat
configuration with an export flag runs the export branch and returns
successfully, spawning nothing but never failing validation. -/
theorem applyWithoutStatExportCounterexample :
    applyExportArgs.enable_cc = some "apply" ∧ applyExportArgs.cc_stat_file = Option.none ∧
    run "/repo" applyExportArgs {} = { spawned := [], outcome := RunOutcome.exported } :=
  ⟨rfl, rfl, rfl⟩

/-- The namespace of enable-cc apply alone. -/
def applyOnlyArgs : Args := { enable_cc := some "apply" }

/-- Witness for the amended C4 at the concrete apply-without-stat input. -/
theorem applyWithoutStatFailsBeforeSpawnWitness :
    applyOnlyArgs.enable_cc = some "apply" ∧
    pyTruthyOpt applyOnlyArgs.cc_stat_file = false ∧
    run "/repo" applyOnlyArgs {} = { spawned := [], outcome := RunOutcome.validationError } :=
  ⟨rfl, rfl, applyWithoutStatFailsBeforeSpawn "/repo" applyOnlyArgs {} rfl rfl rfl rfl⟩

/-! ## Claim C9 (confirmed): configure-only runs -/

/-- Claim C9: whenever the configure counter is at least two and the
configure phase was entered and succeeds, the run ends successfully right
after the configure phase and the build phase is never spawned. -/
theorem configureOnlyStopsAfterConfigure (root : String) (a : Args) (env : RunEnv) (n : Int)
    (hc : a.configure = some n) (hn : 2 ≤ n) (hexit : env.configureExit = 0)
    (hspawn : Phase.configure ∈ (run root a env).spawned) :
    run root a env = { spawned := [Phase.configure], outcome := RunOutcome.success } := by
  have hstrip : (stripTarget a).configure = a.configure := by
    unfold stripTarget; split <;> rfl
  have happ : (applyQuiet (stripTarget a)).configure = (stripTarget a).configure := by
    unfold applyQuiet; split <;> rfl
  have hc2 : (applyQuiet (stripTarget a)).configure = some n := by
    rw [happ, hstrip, hc]
  by_cases hexp : pyTruthyOpt a.export_file = true
  · unfold run at hspawn
    rw [if_pos hexp] at hspawn
    simp at hspawn
  · by_cases hcomp : pyTruthyOpt a.completion = true
    · unfold run at hspawn
      rw [if_neg hexp, if_pos hcomp] at hspawn
      simp at hspawn
    · by_cases hcc : (a.enable_cc = some "apply" ∧ ¬ (pyTruthyOpt a.cc_stat_file = true))
      · unfold run at hspawn
        rw [if_neg hexp, if_neg hcomp, if_pos hcc] at hspawn
        simp at hspawn
      · by_cases hcm : env.cmakeFound = true
        · unfold run at hspawn ⊢
          rw [if_neg hexp, if_neg hcomp, if_neg hcc, if_neg (by simp [hcm])] at hspawn ⊢
          cases hcol : collectCmakeDefs root (applyQuiet (stripTarget a)) with
          | error e =>
            rw [hcol] at hspawn
            simp at hspawn
          | ok dfs =>
            simp only [hcol, hc2] at hspawn ⊢
            rw [if_pos (by omega : n > 0), if_neg (by simp [hexit]),
              if_pos (by omega : n > 1)]
        · unfold run at hspawn
          rw [if_neg hexp, if_neg hcomp, if_neg hcc, if_pos (by simp [hcm])] at hspawn
          simp at hspawn

/-- A configure-only namespace (-cc on the command line). -/
def configureTwiceArgs : Args := { configure := some 2 }

/-- Witness for C9 at the concrete configure-only input. -/
theorem configureOnlyStopsAfterConfigureWitness :
    configureTwiceArgs.configure = some 2 ∧ (2 : Int) ≤ 2 ∧
    RunEnv.configureExit {} = 0 ∧
    Phase.configure ∈ (run "/repo" configureTwiceArgs {}).spawned ∧
    run "/repo" configureTwiceArgs {} =
      { spawned := [Phase.configure], outcome := RunOutcome.success } :=
  ⟨rfl, by decide, rfl, by decide,
   configureOnlyStopsAfterConfigure "/repo" configureTwiceArgs {} 2 rfl (by decide) rfl
     (by decide)⟩

/-! ## Loader lemmas and claim C2 (corrected) -/

/-- The loader fold step of _load_config_file. -/
def loadStep (validDests : List String) (acc : LoadedConfig) (kv : String × PVal) :
    LoadedConfig :=
  if kv.1 ∈ validDests then { acc with config := dset acc.config kv.1 kv.2 }
  else { acc with warnings := acc.warnings ++ [Diag.unknownOption kv.1] }

theorem loadConfigFile_ok_eq (loaded : List (String × PVal)) (validDests : List String)
    (fatal : Bool) :
    loadConfigFile (Except.ok loaded) validDests fatal =
      LoadResult.ok (loaded.foldl (loadStep validDests) { config := [], warnings := [] }) :=
  rfl

theorem loadFold_warn_mono (loaded : List (String × PVal)) (validDests : List String)
    (acc : LoadedConfig) {w : Diag} (hw : w ∈ acc.warnings) :
    w ∈ (loaded.foldl (loadStep validDests) acc).warnings := by
  induction loaded generalizing acc with
  | nil => exact hw
  | cons kv rest ih =>
    rw [List.foldl_cons]
    apply ih
    unfold loadStep
    by_cases h : kv.1 ∈ validDests
    · simpa [h] using hw
    · simp [h]
      exact Or.inl hw

theorem loadFold_warn {loaded : List (String × PVal)} {validDests : List String}
    {k : String} {v : PVal} (hmem : (k, v) ∈ loaded) (hbad : k ∉ validDests)
    (acc : LoadedConfig) :
    Diag.unknownOption k ∈ (loaded.foldl (loadStep validDests) acc).warnings := by
  induction loaded generalizing acc with
  | nil => cases hmem
  | cons kv rest ih =>
    rw [List.foldl_cons]
    cases hmem with
    | head =>
      apply loadFold_warn_mono
      simp [loadStep, hbad]
    | tail _ hmem2 => exact ih hmem2 _

theorem loadFold_config_free {loaded : List (String × PVal)} {validDests : List String}
    {k : String} (hbad : k ∉ validDests) (acc : LoadedConfig)
    (hacc : k ∉ keysOf acc.config) :
    k ∉ keysOf (loaded.foldl (loadStep validDests) acc).config := by
  induction loaded generalizing acc with
  | nil => exact hacc
  | cons kv rest ih =>
    rw [List.foldl_cons]
    apply ih
    unfold loadStep
    by_cases h : kv.1 ∈ validDests
    · simp only [h, if_true]
      rw [keysOf_dset]
      by_cases h2 : kv.1 ∈ keysOf acc.config
      · simpa [h2] using hacc
      · simp only [h2, if_false]
        simp only [List.mem_append, List.mem_singleton]
        rintro (h3 | h3)
        · exact hacc h3
        · rw [h3] at hbad; exact hbad h
    · simpa [h] using hacc

/-- Claim C2 as amended: an unknown key warns and is dropped in every layer,
mandatory or best-effort, and never aborts; only a read or parse failure
distinguishes the layers, exiting 1 for the mandatory import layer and
warning with an empty mapping for the best-effort layer. -/
theorem unknownKeysWarnNeverAbort :
    (∀ (loaded : List (String × PVal)) (validDests : List String) (fatal : Bool),
      LoadResult.isExited (loadConfigFile (Except.ok loaded) validDests fatal) = false) ∧
    (∀ (loaded : List (String × PVal)) (validDests : List String) (fatal : Bool)
       (k : String) (v : PVal) (lc : LoadedConfig),
      (k, v) ∈ loaded → k ∉ validDests →
      loadConfigFile (Except.ok loaded) validDests fatal = LoadResult.ok lc →
      Diag.unknownOption k ∈ lc.warnings ∧ k ∉ keysOf lc.config) ∧
    (∀ (msg : String) (validDests : List String),
      loadConfigFile (Except.error msg) validDests true = LoadResult.exited 1) ∧
    (∀ (msg : String) (validDests : List String),
      loadConfigFile (Except.error msg) validDests false =
        LoadResult.ok { config := [], warnings := [Diag.loadFailure] }) := by
  refine ⟨fun loaded validDests fatal => rfl, ?_, fun msg validDests => rfl,
    fun msg validDests => rfl⟩
  intro loaded validDests fatal k v lc hmem hbad hok
  rw [loadConfigFile_ok_eq] at hok
  cases hok
  exact ⟨loadFold_warn hmem hbad _, loadFold_config_free hbad _ (by simp)⟩

/-- The loaded configuration of a non-exiting load (empty on exit). -/
def okLoaded : LoadResult → LoadedConfig
  | LoadResult.ok lc => lc
  | LoadResult.exited _ => { config := [], warnings := [] }

/-- Witness for the amended C2 at a concrete unknown key in the
mandatory import layer. -/
theorem unknownKeysWarnNeverAbortWitness :
    LoadResult.isExited
      (loadConfigFile (Except.ok [("bogus_key", PVal.str "x")]) parserActionDests true) =
      false ∧
    (Diag.unknownOption "bogus_key" ∈
      (okLoaded (loadConfigFile (Except.ok [("bogus_key", PVal.str "x")])
        parserActionDests true)).warnings ∧
     "bogus_key" ∉ keysOf (okLoaded (loadConfigFile (Except.ok [("bogus_key", PVal.str "x")])
        parserActionDests true)).config) :=
  ⟨unknownKeysWarnNeverAbort.1 [("bogus_key", PVal.str "x")] parserActionDests true,
   unknownKeysWarnNeverAbort.2.1 [("bogus_key", PVal.str "x")] parserActionDests true
     "bogus_key" (PVal.str "x")
     (okLoaded (loadConfigFile (Except.ok [("bogus_key", PVal.str "x")])
       parserActionDests true))
     (by decide) (by decide) rfl⟩

/-- Counterexample to C2 as stated: a mandatory import file holding only an
unknown key loads successfully with a warning instead of aborting with exit
code 1. -/
theorem unknownKeyMandatoryCounterexample :
    loadConfigFile (Except.ok [("bogus_key", PVal.str "x")]) parserActionDests true =
      LoadResult.ok { config := [], warnings := [Diag.unknownOption "bogus_key"] } ∧
    "bogus_key" ∉ parserActionDests := by
  exact ⟨by decide, by decide⟩

/-! ## Claim C8 (code_bug): individual frontend and plugin flags -/

/-- Claim C8: the parser defines no individual enable flag for any frontend
or plugin (though the module docstring example uses them), so the only
selection mechanism is the multi-select list: the getattr fallbacks are
constantly False and the selected set reduces to list membership. -/
theorem individualFrontendFlagsAbsent :
    (FRONTENDS.all (fun fe =>
      decide (("--enable-" ++ fe ++ "-frontend") ∉ parserOptionStrings)) = true) ∧
    (PLUGINS.all (fun pl =>
      decide (("--enable-" ++ pl ++ "-plugin") ∉ parserOptionStrings)) = true) ∧
    ("--enable-onnx-frontend" ∉ parserOptionStrings) ∧
    ("--enable-tf-frontend" ∉ parserOptionStrings) ∧
    (∀ (a : Args) (fe : String), enableFrontendAttr a fe = false) ∧
    (∀ (a : Args) (pl : String), enablePluginAttr a pl = false) ∧
    (∀ (a : Args) (fe : String), feSelected a fe =
      match a.frontends with
      | some l => decide (fe ∈ l)
      | Option.none => false) ∧
    (∀ (a : Args) (pl : String), plSelected a pl =
      match a.plugins with
      | some l => decide (pl ∈ l)
      | Option.none => false) := by
  refine ⟨by decide, by decide, by decide, by decide,
    fun a fe => rfl, fun a pl => rfl, fun a fe => ?_, fun a pl => ?_⟩
  · unfold feSelected enableFrontendAttr
    cases a.frontends <;> simp
  · unfold plSelected enablePluginAttr
    cases a.plugins <;> simp

/-! ## Lemmas for the merge-and-parse phase -/

theorem keysOf_tab (ds : List String) (g : String → PVal) :
    keysOf (ds.map (fun x => (x, g x))) = ds := by
  induction ds with
  | nil => rfl
  | cons x rest ih => simp [ih]

theorem dlookup_tab (ds : List String) (g : String → PVal) {d : String} (h : d ∈ ds) :
    dlookup (ds.map (fun x => (x, g x))) d = some (g d) := by
  induction ds with
  | nil => cases h
  | cons x rest ih =>
    by_cases hx : x = d
    · subst hx; simp [dlookup_cons]
    · have h2 : d ∈ rest := by
        rcases List.mem_cons.mp h with h3 | h3
        · exact absurd h3.symm hx
        · exact h3
      simp [dlookup_cons, hx, ih h2]

theorem dlookup_tab_none (ds : List String) (g : String → PVal) {d : String} (h : d ∉ ds) :
    dlookup (ds.map (fun x => (x, g x))) d = Option.none := by
  rw [dlookup_eq_none, keysOf_tab]
  exact h

theorem loadFold_config_nodup (loaded : List (String × PVal)) (validDests : List String)
    (acc : LoadedConfig) (hacc : (keysOf acc.config).Nodup) :
    (keysOf ((loaded.foldl (loadStep validDests) acc)).config).Nodup := by
  induction loaded generalizing acc with
  | nil => exact hacc
  | cons kv rest ih =>
    rw [List.foldl_cons]
    apply ih
    unfold loadStep
    by_cases h : kv.1 ∈ validDests
    · simp only [h, if_true]
      exact nodup_keysOf_dset hacc _ _
    · simpa [h] using hacc

theorem loadConfigFile_ok_nodup {readResult : Except String (List (String × PVal))}
    {validDests : List String} {fatal : Bool} {lc : LoadedConfig}
    (h : loadConfigFile readResult validDests fatal = LoadResult.ok lc) :
    (keysOf lc.config).Nodup := by
  unfold loadConfigFile at h
  split at h
  · split at h
    · cases h
    · cases h; simp
  · cases h
    exact loadFold_config_nodup _ _ _ (by simp)

theorem dUpdate_dlookup {e : List (String × PVal)} (d : List (String × PVal)) (k : String)
    (he : (keysOf e).Nodup) :
    dlookup (dUpdate d e) k =
      match dlookup e k with
      | some v => some v
      | Option.none => dlookup d k := by
  induction e generalizing d with
  | nil => rfl
  | cons kv rest ih =>
    have hr : (keysOf rest).Nodup := (List.nodup_cons.mp (by simpa using he)).2
    have hd : kv.1 ∉ keysOf rest := (List.nodup_cons.mp (by simpa using he)).1
    unfold dUpdate at *
    rw [List.foldl_cons]
    rw [ih (dset d kv.1 kv.2) hr]
    by_cases hk : kv.1 = k
    · subst hk
      rw [dlookup_eq_none.mpr hd]
      simp [dlookup_cons, dlookup_dset_self]
    · have : ¬ (kv.1 = k) := hk
      rw [dlookup_cons, if_neg this, dlookup_dset_ne _ _ (fun he2 => hk he2.symm)]

/-! ## Claim C7 (corrected): merge precedence -/

/-- First set value in a precedence-ordered list of sources, else the
default. -/
def firstSome (xs : List (Option PVal)) (dflt : PVal) : PVal :=
  match xs with
  | [] => dflt
  | x :: rest =>
    match x with
    | some v => v
    | Option.none => firstSome rest dflt

theorem firstSome_layers (bcfg icfg : List (String × PVal)) (d : String) (dflt : PVal)
    (hicfg : (keysOf icfg).Nodup) :
    firstSome [dlookup icfg d, dlookup bcfg d] dflt =
      (dlookup (dUpdate bcfg icfg) d).getD dflt := by
  rw [dUpdate_dlookup bcfg d hicfg]
  cases dlookup icfg d with
  | some v => rfl
  | none => cases dlookup bcfg d with
    | some v => rfl
    | none => rfl

/-- Claim C7 as amended: for every option key other than import_file and
ignore_config (both taken solely from the first command-line phase, so a
layer value for them is discarded), when the persisted layer and the
mandatory import layer both load, the parsed value is the
highest-precedence source holding the key: command line, else import
layer, else persisted layer, else schema default.  For target, an
explicitly supplied value is assumed non-falsy (the remainder of a real
command line is a token list, and an empty one counts as not supplied,
falling through to the layers). -/
theorem mergePrecedence (cmd : CmdLine) (bread ir : Except String (List (String × PVal)))
    (bcfg icfg : List (String × PVal)) (bw iw : List Diag) (p d : String)
    (himp : cmd.impFile = some p) (hig : cmd.ignoreConfig = false)
    (hb : loadConfigFile bread parserActionDests false = LoadResult.ok ⟨bcfg, bw⟩)
    (hi : loadConfigFile ir parserActionDests true = LoadResult.ok ⟨icfg, iw⟩)
    (hd : d ∈ parserDests) (h1 : d ≠ "import_file") (h2 : d ≠ "ignore_config")
    (h3 : d = "target" →
      (match dlookup cmd.supplied "target" with
       | some v => pyFalsy v = false
       | Option.none => True)) :
    mergeAndParse cmd (some bread) ir =
      MergeResult.ok
        (parserDests.map (fun x => (x, parsedValue cmd (dUpdate bcfg icfg) x)))
        (dUpdate bcfg icfg) (bw ++ iw) ∧
    dlookup (parserDests.map (fun x => (x, parsedValue cmd (dUpdate bcfg icfg) x))) d =
      some (firstSome [dlookup cmd.supplied d, dlookup icfg d, dlookup bcfg d]
        (schemaDefault d)) := by
  have hicfg : (keysOf icfg).Nodup := loadConfigFile_ok_nodup hi
  constructor
  · simp [mergeAndParse, bestEffortLayer, hig, himp, hb, hi]
  · rw [dlookup_tab parserDests _ hd]
    congr 1
    unfold parsedValue
    by_cases ht : d = "target"
    · subst ht
      simp only [if_pos rfl]
      have h3t := h3 rfl
      cases hsup : dlookup cmd.supplied "target" with
      | some v =>
        rw [hsup] at h3t
        simp [firstSome, h3t]
      | none =>
        simp only [Option.getD]
        have hfs : firstSome [Option.none, dlookup icfg "target", dlookup bcfg "target"]
            (schemaDefault "target") =
            (dlookup (dUpdate bcfg icfg) "target").getD (schemaDefault "target") := by
          rw [show firstSome [Option.none, dlookup icfg "target", dlookup bcfg "target"]
              (schemaDefault "target") =
              firstSome [dlookup icfg "target", dlookup bcfg "target"]
              (schemaDefault "target") from rfl]
          exact firstSome_layers bcfg icfg "target" (schemaDefault "target") hicfg
        rw [hfs]
        cases hcomb : dlookup (dUpdate bcfg icfg) "target" with
        | some w => simp [pyFalsy]
        | none =>
          simp [pyFalsy]
          decide
    · rw [if_neg ht, if_neg h1, if_neg h2]
      cases hsup : dlookup cmd.supplied d with
      | some v => simp [firstSome]
      | none =>
        simp only [Option.getD, firstSome]
        rw [dUpdate_dlookup bcfg d hicfg]
        cases hI : dlookup icfg d with
        | some v => rfl
        | none =>
          cases hB : dlookup bcfg d with
          | some v => rfl
          | none => rfl

/-- The parsed namespace mapping of a non-exiting merge (empty on exit). -/
def mergedMap : MergeResult → List (String × PVal)
  | MergeResult.ok m _ _ => m
  | MergeResult.exited _ => []

/-- Counterexample to C7 as stated: an import layer supplying
ignore_config true is the highest-precedence source for that key, yet the
merged configuration holds false (the value of the absent command-line
flag). -/
theorem mergePrecedenceIgnoreConfigCounterexample :
    dlookup (mergedMap (mergeAndParse ⟨[], some "cfg.yaml", false⟩ Option.none
        (Except.ok [("ignore_config", PVal.bool true)]))) "ignore_config" =
      some (PVal.bool false) ∧
    dlookup [("ignore_config", PVal.bool true)] "ignore_config" =
      some (PVal.bool true) := by
  exact ⟨by decide, by decide⟩

/-- Witness for the amended C7: a key set in both layers and on the command
line resolves to the command-line value. -/
theorem mergePrecedenceWitness :
    mergeAndParse ⟨[("build_type", PVal.str "Debug")], some "cfg.yaml", false⟩
        (some (Except.ok [("build_type", PVal.str "Release"),
          ("threading", PVal.str "SEQ")]))
        (Except.ok [("build_type", PVal.str "RelWithDebInfo")]) =
      MergeResult.ok
        (parserDests.map (fun x => (x, parsedValue
          ⟨[("build_type", PVal.str "Debug")], some "cfg.yaml", false⟩
          (dUpdate [("build_type", PVal.str "Release"), ("threading", PVal.str "SEQ")]
            [("build_type", PVal.str "RelWithDebInfo")]) x)))
        (dUpdate [("build_type", PVal.str "Release"), ("threading", PVal.str "SEQ")]
          [("build_type", PVal.str "RelWithDebInfo")]) ([] ++ []) ∧
    dlookup (parserDests.map (fun x => (x, parsedValue
        ⟨[("build_type", PVal.str "Debug")], some "cfg.yaml", false⟩
        (dUpdate [("build_type", PVal.str "Release"), ("threading", PVal.str "SEQ")]
          [("build_type", PVal.str "RelWithDebInfo")]) x))) "build_type" =
      some (firstSome
        [dlookup [("build_type", PVal.str "Debug")] "build_type",
         dlookup [("build_type", PVal.str "RelWithDebInfo")] "build_type",
         dlookup [("build_type", PVal.str "Release"), ("threading", PVal.str "SEQ")]
           "build_type"]
        (schemaDefault "build_type")) :=
  mergePrecedence ⟨[("build_type", PVal.str "Debug")], some "cfg.yaml", false⟩
    (Except.ok [("build_type", PVal.str "Release"), ("threading", PVal.str "SEQ")])
    (Except.ok [("build_type", PVal.str "RelWithDebInfo")])
    [("build_type", PVal.str "Release"), ("threading", PVal.str "SEQ")]
    [("build_type", PVal.str "RelWithDebInfo")] [] [] "cfg.yaml" "build_type"
    rfl rfl (by decide) (by decide) (by decide) (by decide) (by decide)
    (fun h => absurd h (by decide))

/-! ## Environment lemmas and claim C10 (corrected) -/

theorem envSetdefault_lookup_self (e : Env) (k v : String) :
    dlookup (envSetdefault e k v) k = some ((dlookup e k).getD v) := by
  unfold envSetdefault
  cases he : dlookup e k with
  | some w => simp [he]
  | none => simp [he, dlookup_dset_self]

theorem envSetdefault_lookup_ne (e : Env) {k k2 : String} (v : String) (h : k2 ≠ k) :
    dlookup (envSetdefault e k v) k2 = dlookup e k2 := by
  unfold envSetdefault
  split
  · rfl
  · exact dlookup_dset_ne e v h

theorem envAppend_lookup_ne (e : Env) {k k2 : String} (s : String) (h : k2 ≠ k) :
    dlookup (envAppend e k s) k2 = dlookup e k2 :=
  dlookup_dset_ne e _ h

theorem nativeEnvStep_lookup_ne (a : Args) (e : Env) {k : String}
    (h1 : k ≠ "CFLAGS") (h2 : k ≠ "CXXFLAGS") (h3 : k ≠ "LDFLAGS") :
    dlookup (nativeEnvStep a e) k = dlookup e k := by
  unfold nativeEnvStep
  split
  · rw [envAppend_lookup_ne _ _ h3, envAppend_lookup_ne _ _ h2, envAppend_lookup_ne _ _ h1]
  · rfl

theorem perfEnvStep_lookup_ne (a : Args) (e : Env) {k : String}
    (h1 : k ≠ "CFLAGS") (h2 : k ≠ "CXXFLAGS") (h3 : k ≠ "LDFLAGS") :
    dlookup (perfEnvStep a e) k = dlookup e k := by
  unfold perfEnvStep
  split
  · rw [envAppend_lookup_ne _ _ h3, envAppend_lookup_ne _ _ h2, envAppend_lookup_ne _ _ h1]
  · rfl

theorem gprofEnvStep_lookup_ne (a : Args) (e : Env) {k : String}
    (h1 : k ≠ "CFLAGS") (h2 : k ≠ "CXXFLAGS") (h3 : k ≠ "LDFLAGS") :
    dlookup (gprofEnvStep a e) k = dlookup e k := by
  unfold gprofEnvStep
  split
  · rw [envAppend_lookup_ne _ _ h3, envAppend_lookup_ne _ _ h2, envAppend_lookup_ne _ _ h1]
  · rfl

theorem clangEnvStep_lookup_ne (a : Args) (e : Env) {k : String}
    (h1 : k ≠ "CC") (h2 : k ≠ "CXX") :
    dlookup (clangEnvStep a e) k = dlookup e k := by
  unfold clangEnvStep
  split
  · rw [dlookup_dset_ne _ _ h2, dlookup_dset_ne _ _ h1]
  · rfl

/-- With ccache enabled, _initial_env leaves CCACHE_DIR and CCACHE_MAXSIZE
at their preexisting values, setting the defaults only when absent. -/
theorem initialEnv_ccache (home : String) (a : Args) (e : Env)
    (hu : a.use_ccache = true) :
    dlookup (initialEnv home a e) "CCACHE_DIR" =
      some ((dlookup e "CCACHE_DIR").getD (home ++ "/.ccache")) ∧
    dlookup (initialEnv home a e) "CCACHE_MAXSIZE" =
      some ((dlookup e "CCACHE_MAXSIZE").getD "50G") := by
  unfold initialEnv
  constructor
  · rw [clangEnvStep_lookup_ne _ _ (by decide) (by decide),
      gprofEnvStep_lookup_ne _ _ (by decide) (by decide) (by decide),
      perfEnvStep_lookup_ne _ _ (by decide) (by decide) (by decide),
      nativeEnvStep_lookup_ne _ _ (by decide) (by decide) (by decide)]
    unfold ccacheEnvStep
    rw [hu]
    simp only [if_true]
    rw [envSetdefault_lookup_ne _ _ (by decide)]
    exact envSetdefault_lookup_self e "CCACHE_DIR" (home ++ "/.ccache")
  · rw [clangEnvStep_lookup_ne _ _ (by decide) (by decide),
      gprofEnvStep_lookup_ne _ _ (by decide) (by decide) (by decide),
      perfEnvStep_lookup_ne _ _ (by decide) (by decide) (by decide),
      nativeEnvStep_lookup_ne _ _ (by decide) (by decide) (by decide)]
    unfold ccacheEnvStep
    rw [hu]
    simp only [if_true]
    rw [envSetdefault_lookup_self, envSetdefault_lookup_ne _ _ (by decide)]

/-- With ccache enabled, a successful synthesis carries the ccache compiler
launcher define. -/
theorem collect_ok_lookup_launcher {root : String} {a : Args} {dfs : Defs}
    (hu : a.use_ccache = true) (h : collectCmakeDefs root a = Except.ok dfs) :
    dlookup dfs "CMAKE_CXX_COMPILER_LAUNCHER" = some "ccache" := by
  have hccid := collect_ok_ccStep_id h
  unfold collectCmakeDefs at h
  split at h
  · cases h
  · rename_i d1 hloop
    split at h
    · cases h
    · rename_i d3 hsan
      rw [archStep_ok_lookup_ne h (by decide) (by decide), hccid,
        moldStep_lookup_ne (by decide) (by decide) (by decide),
        pluginStep_lookup_ne (by decide), frontendStep_lookup_ne (by decide)]
      rw [hu]
      simp only [if_true]
      exact dlookup_dset_self _ _ _

/-- The parsed namespace mapping of a non-exiting merge is the parsedValue
table over the parser dests with the returned defaults. -/
theorem mergeAndParse_ok_shape {cmd : CmdLine}
    {bf : Option (Except String (List (String × PVal)))}
    {ir : Except String (List (String × PVal))}
    {m dfl : List (String × PVal)} {dg : List Diag}
    (h : mergeAndParse cmd bf ir = MergeResult.ok m dfl dg) :
    m = parserDests.map (fun x => (x, parsedValue cmd dfl x)) := by
  unfold mergeAndParse at h
  split at h
  · cases h; rfl
  · split at h
    · cases h
    · cases h; rfl

/-- Claim C10 as amended: no command-line flag can disable the ccache
toggle (the flag is store-true with schema default true), so whenever the
configuration layers do not override use_ccache the merged namespace has it
enabled; with it enabled, every successful synthesis carries
CMAKE_CXX_COMPILER_LAUNCHER = ccache and _initial_env sets CCACHE_DIR and
CCACHE_MAXSIZE only when absent.  A configuration layer supplying
use_ccache false, however, can disable all of this. -/
theorem ccacheOnUnlessLayerDisables (cmd : CmdLine)
    (bf : Option (Except String (List (String × PVal))))
    (ir : Except String (List (String × PVal)))
    (m dfl : List (String × PVal)) (dg : List Diag)
    (root home : String) (a : Args) (dfs : Defs) (e : Env)
    (hok : mergeAndParse cmd bf ir = MergeResult.ok m dfl dg)
    (hlayer : dlookup dfl "use_ccache" = Option.none)
    (hcli : dlookup cmd.supplied "use_ccache" = Option.none ∨
      dlookup cmd.supplied "use_ccache" = some (PVal.bool true))
    (hu : a.use_ccache = true) (hsyn : collectCmakeDefs root a = Except.ok dfs) :
    (decodeArgs m).use_ccache = true ∧
    dlookup dfs "CMAKE_CXX_COMPILER_LAUNCHER" = some "ccache" ∧
    dlookup (initialEnv home a e) "CCACHE_DIR" =
      some ((dlookup e "CCACHE_DIR").getD (home ++ "/.ccache")) ∧
    dlookup (initialEnv home a e) "CCACHE_MAXSIZE" =
      some ((dlookup e "CCACHE_MAXSIZE").getD "50G") := by
  refine ⟨?_, collect_ok_lookup_launcher hu hsyn, (initialEnv_ccache home a e hu).1,
    (initialEnv_ccache home a e hu).2⟩
  rw [mergeAndParse_ok_shape hok]
  show pvTruthy (mval (parserDests.map (fun x => (x, parsedValue cmd dfl x))) "use_ccache") =
    true
  unfold mval
  rw [dlookup_tab parserDests _ (by decide)]
  unfold parsedValue
  rw [if_neg (by decide), if_neg (by decide), if_neg (by decide), hlayer]
  rcases hcli with hcli | hcli <;> rw [hcli] <;> rfl

/-- The namespace a layer with use_ccache false produces. -/
def noCcacheArgs : Args := { use_ccache := false }

/-- Counterexample to C10 as stated: an import layer supplying use_ccache
false reaches synthesis with ccache disabled: the merged namespace decodes
to use_ccache false, the definition set lacks the compiler launcher, and
the environment step sets no CCACHE_DIR. -/
theorem ccacheLayerDisableCounterexample :
    (decodeArgs (mergedMap (mergeAndParse ⟨[], some "cfg.yaml", false⟩ Option.none
      (Except.ok [("use_ccache", PVal.bool false)])))).use_ccache = false ∧
    defsOk (collectCmakeDefs "/repo" noCcacheArgs) = true ∧
    dlookup (okDefs (collectCmakeDefs "/repo" noCcacheArgs))
      "CMAKE_CXX_COMPILER_LAUNCHER" = Option.none ∧
    dlookup (initialEnv "/home/user" noCcacheArgs []) "CCACHE_DIR" = Option.none := by
  exact ⟨by decide, by decide, by decide, by decide⟩

/-- Witness for the amended C10 at an empty command line with no layers. -/
theorem ccacheOnUnlessLayerDisablesWitness :
    (decodeArgs (mergedMap (mergeAndParse ⟨[], Option.none, false⟩ Option.none
      (Except.ok [])))).use_ccache = true ∧
    dlookup (okDefs (collectCmakeDefs "/repo" defaultArgs))
      "CMAKE_CXX_COMPILER_LAUNCHER" = some "ccache" ∧
    dlookup (initialEnv "/home/user" defaultArgs []) "CCACHE_DIR" =
      some ((dlookup ([] : Env) "CCACHE_DIR").getD ("/home/user" ++ "/.ccache")) ∧
    dlookup (initialEnv "/home/user" defaultArgs []) "CCACHE_MAXSIZE" =
      some ((dlookup ([] : Env) "CCACHE_MAXSIZE").getD "50G") :=
  ccacheOnUnlessLayerDisables ⟨[], Option.none, false⟩ Option.none (Except.ok [])
    (mergedMap (mergeAndParse ⟨[], Option.none, false⟩ Option.none (Except.ok [])))
    (bestEffortLayer ⟨[], Option.none, false⟩ Option.none).1
    (bestEffortLayer ⟨[], Option.none, false⟩ Option.none).2
    "/repo" "/home/user" defaultArgs (okDefs (collectCmakeDefs "/repo" defaultArgs)) []
    rfl rfl (Or.inl rfl) rfl rfl

/-! ## Lemmas for the export round trip -/

theorem keysOf_filter {β : Type} (l : List (String × β)) (p : String → Bool) :
    keysOf (l.filter (fun kv => p kv.1)) = (keysOf l).filter p := by
  induction l with
  | nil => rfl
  | cons kv rest ih =>
    by_cases hp : p kv.1 <;> simp [List.filter_cons, hp, ih]

theorem dlookup_filter_key {β : Type} {l : List (String × β)} (p : String → Bool)
    (hl : (keysOf l).Nodup) (k : String) :
    dlookup (l.filter (fun kv => p kv.1)) k =
      if p k then dlookup l k else Option.none := by
  induction l with
  | nil => simp
  | cons kv rest ih =>
    have hnd : (keysOf rest).Nodup := (List.nodup_cons.mp (by simpa using hl)).2
    have hnm : kv.1 ∉ keysOf rest := (List.nodup_cons.mp (by simpa using hl)).1
    by_cases hk : kv.1 = k
    · subst hk
      by_cases hp : p kv.1
      · simp [List.filter_cons, hp, dlookup_cons]
      · rw [List.filter_cons, if_neg hp, ih hnd]
        simp [hp]
    · by_cases hp : p kv.1 <;> simp [List.filter_cons, hp, dlookup_cons, hk, ih hnd]

theorem dset_append_fresh {β : Type} {d : List (String × β)} {k : String} (v : β)
    (h : k ∉ keysOf d) : dset d k v = d ++ [(k, v)] := by
  unfold dset
  rw [if_neg h]

theorem foldl_dset_rebuild {β : Type} (l : List (String × β)) (acc : List (String × β))
    (h : (keysOf (acc ++ l)).Nodup) :
    l.foldl (fun acc2 kv => dset acc2 kv.1 kv.2) acc = acc ++ l := by
  induction l generalizing acc with
  | nil => simp
  | cons kv rest ih =>
    rw [List.foldl_cons]
    have hfresh : kv.1 ∉ keysOf acc := by
      intro hmem
      rw [keysOf_append] at h
      have := (List.nodup_append.mp h).2.2
      exact this hmem (by simp)
    rw [dset_append_fresh _ hfresh]
    rw [ih (acc ++ [(kv.1, kv.2)]) (by simpa using h)]
    simp

theorem dUpdate_nil_rebuild (e : List (String × PVal)) (h : (keysOf e).Nodup) :
    dUpdate [] e = e := by
  unfold dUpdate
  rw [foldl_dset_rebuild e [] (by simpa using h)]
  simp

theorem loadFold_rebuild (validDests : List String) (l : List (String × PVal))
    (acc : LoadedConfig) (h : (keysOf (acc.config ++ l)).Nodup)
    (hv : ∀ kv ∈ l, kv.1 ∈ validDests) :
    l.foldl (loadStep validDests) acc = ⟨acc.config ++ l, acc.warnings⟩ := by
  induction l generalizing acc with
  | nil => simp
  | cons kv rest ih =>
    rw [List.foldl_cons]
    have hfresh : kv.1 ∉ keysOf acc.config := by
      intro hmem
      rw [keysOf_append] at h
      have := (List.nodup_append.mp h).2.2
      exact this hmem (by simp)
    have hstep : loadStep validDests acc kv =
        ⟨acc.config ++ [(kv.1, kv.2)], acc.warnings⟩ := by
      unfold loadStep
      rw [if_pos (hv kv (by simp)), dset_append_fresh _ hfresh]
    rw [hstep]
    rw [ih ⟨acc.config ++ [(kv.1, kv.2)], acc.warnings⟩ (by simpa using h)
      (fun kv2 h2 => hv kv2 (List.mem_cons_of_mem _ h2))]
    simp

theorem loadConfigFile_rebuild (validDests : List String) (l : List (String × PVal))
    (fatal : Bool) (h : (keysOf l).Nodup) (hv : ∀ kv ∈ l, kv.1 ∈ validDests) :
    loadConfigFile (Except.ok l) validDests fatal = LoadResult.ok ⟨l, []⟩ := by
  rw [loadConfigFile_ok_eq]
  rw [loadFold_rebuild validDests l ⟨[], []⟩ (by simpa using h) hv]
  simp

theorem filtermap_congr (ds : List String) (g1 g2 : String → PVal) (p1 p2 : String → Bool)
    (h : ∀ d ∈ ds, p2 d = p1 d ∧ (p1 d = true →
      g2 d = if d = "ignore_config" then PVal.bool false else g1 d)) :
    ((ds.map (fun d => (d, g2 d))).filter (fun kv => p2 kv.1)) =
      (((ds.map (fun d => (d, g1 d))).filter (fun kv => p1 kv.1)).map
        (fun kv => if kv.1 = "ignore_config" then (kv.1, PVal.bool false) else kv)) := by
  induction ds with
  | nil => rfl
  | cons x rest ih =>
    obtain ⟨hp, hg⟩ := h x (List.mem_cons_self _ _)
    have ih2 := ih (fun d hd => h d (List.mem_cons_of_mem _ hd))
    simp only [List.map_cons, List.filter_cons]
    by_cases hx : p1 x = true
    · rw [hp, hx]
      simp only [if_true]
      rw [List.map_cons, ih2]
      congr 1
      rw [hg hx]
      by_cases hig : x = "ignore_config" <;> simp [hig]
    · have hx2 : p1 x = false := by
        cases hb : p1 x
        · rfl
        · exact absurd hb hx
      rw [hp, hx2]
      simp only [Bool.false_eq_true, if_false]
      exact ih2

/-- The synthesizer reads none of export_file, import_file (imp_file) and
ignore_config. -/
theorem collectCmakeDefs_congr (root : String) (a b : Args)
    (h1 : a.build_type = b.build_type) (h2 : a.output_root = b.output_root)
    (h3 : a.enable = b.enable) (h4 : a.enable_cc = b.enable_cc)
    (h5 : a.threading = b.threading) (h6 : a.use_ccache = b.use_ccache)
    (h7 : a.frontends = b.frontends) (h8 : a.plugins = b.plugins)
    (h9 : a.cc_stat_file = b.cc_stat_file) (h10 : a.use_mold = b.use_mold)
    (h11 : a.arch = b.arch) :
    collectCmakeDefs root a = collectCmakeDefs root b := by
  cases a
  cases b
  dsimp only at h1 h2 h3 h4 h5 h6 h7 h8 h9 h10 h11
  subst h1 h2 h3 h4 h5 h6 h7 h8 h9 h10 h11
  rfl

/-- The build-directory string reads none of them either. -/
theorem computeBuildDir_congr (a b : Args)
    (h1 : a.build_type = b.build_type) (h2 : a.arch = b.arch)
    (h3 : a.threading = b.threading) (h4 : a.native_compilation = b.native_compilation)
    (h5 : a.enable = b.enable) :
    computeBuildDir a = computeBuildDir b := by
  cases a
  cases b
  dsimp only at h1 h2 h3 h4 h5
  subst h1 h2 h3 h4 h5
  rfl

theorem parsedValue_nontarget (cmd : CmdLine) (defaults : List (String × PVal))
    {d : String} (ht : d ≠ "target") (h1 : d ≠ "import_file") (h2 : d ≠ "ignore_config") :
    parsedValue cmd defaults d =
      (dlookup cmd.supplied d).getD ((dlookup defaults d).getD (schemaDefault d)) := by
  unfold parsedValue
  rw [if_neg ht, if_neg h1, if_neg h2]

theorem parsedValue_ignoreConfig (cmd : CmdLine) (defaults : List (String × PVal)) :
    parsedValue cmd defaults "ignore_config" = PVal.bool cmd.ignoreConfig := by
  unfold parsedValue
  rw [if_neg (by decide), if_neg (by decide), if_pos rfl]

theorem parsedValue_target (cmd : CmdLine) (defaults : List (String × PVal)) :
    parsedValue cmd defaults "target" =
      if (dlookup defaults "target").isSome ∧
          pyFalsy ((dlookup cmd.supplied "target").getD (PVal.strList [])) then
        (dlookup defaults "target").getD
          ((dlookup cmd.supplied "target").getD (PVal.strList []))
      else (dlookup cmd.supplied "target").getD (PVal.strList []) := by
  unfold parsedValue
  rw [if_pos rfl]

theorem enableDestsClear :
    ON_OFF_FLAGS.all (fun f => decide (("enable_" ++ pyDest f) ≠ "export_file" ∧
      ("enable_" ++ pyDest f) ≠ "import_file" ∧
      ("enable_" ++ pyDest f) ≠ "ignore_config")) = true := by
  decide

theorem parserDests_nodup : parserDests.Nodup := by decide

theorem bestEffortLayer_none (cmd : CmdLine) :
    bestEffortLayer cmd Option.none = ([], []) := by
  unfold bestEffortLayer
  split <;> rfl

/-! ## Claim C5 (corrected): the export round trip -/

/-- Claim C5 as amended: exporting serializes exactly the keys provided by
a layer or detected on the command line (schema defaults omitted),
and importing a previously exported file with no further flags then
re-exporting yields the same document except that an exported ignore_config
re-exports as false (the import phase takes ignore_config and import_file
solely from the command line); the synthesized definition set and the
directory name of the re-imported run are identical to the original.
(Both runs are taken without a .build file; the command line is abstracted
to its parsed values, with option-string detection matching the supplied
set.) -/
theorem exportRoundTrip (cmd1 : CmdLine) (out2 ipath root : String)
    (m1 E m2 E2 : List (String × PVal))
    (himp : cmd1.impFile = Option.none)
    (h1 : runExportPhase cmd1 Option.none (Except.ok []) = some (m1, E))
    (h2 : runExportPhase ⟨[("export_file", PVal.str out2)], some ipath, false⟩
        Option.none (Except.ok E) = some (m2, E2)) :
    E2 = E.map (fun kv => if kv.1 = "ignore_config" then (kv.1, PVal.bool false) else kv) ∧
    collectCmakeDefs root (decodeArgs m2) = collectCmakeDefs root (decodeArgs m1) ∧
    computeBuildDir (decodeArgs m2) = computeBuildDir (decodeArgs m1) := by
  have hbe1 : bestEffortLayer cmd1 Option.none = ([], []) := bestEffortLayer_none cmd1
  have hM1 : mergeAndParse cmd1 Option.none (Except.ok []) =
      MergeResult.ok (parserDests.map (fun d => (d, parsedValue cmd1 [] d))) [] [] := by
    unfold mergeAndParse
    rw [himp]
    rw [hbe1]
  have h1b : (some ((parserDests.map (fun d => (d, parsedValue cmd1 [] d))),
      exportArgs (parserDests.map (fun d => (d, parsedValue cmd1 [] d))) []
        (cliDetectedDests cmd1)) : Option (List (String × PVal) × List (String × PVal))) =
      some (m1, E) := by
    rw [← h1]
    unfold runExportPhase
    rw [hM1]
  have hm1eq : (parserDests.map (fun d => (d, parsedValue cmd1 [] d))) = m1 :=
    congrArg Prod.fst (Option.some.inj h1b)
  have hEeq : exportArgs (parserDests.map (fun d => (d, parsedValue cmd1 [] d))) []
      (cliDetectedDests cmd1) = E :=
    congrArg Prod.snd (Option.some.inj h1b)
  subst hm1eq
  subst hEeq
  have hndM1 : (keysOf (parserDests.map (fun d => (d, parsedValue cmd1 [] d)))).Nodup := by
    rw [keysOf_tab]
    exact parserDests_nodup
  have hEkeys : keysOf (exportArgs (parserDests.map (fun d => (d, parsedValue cmd1 [] d)))
      [] (cliDetectedDests cmd1)) =
      parserDests.filter (exportPred [] (cliDetectedDests cmd1)) := by
    unfold exportArgs
    rw [keysOf_filter, keysOf_tab]
  have hEnodup : (keysOf (exportArgs (parserDests.map (fun d => (d, parsedValue cmd1 [] d)))
      [] (cliDetectedDests cmd1))).Nodup := by
    rw [hEkeys]
    exact parserDests_nodup.filter _
  have hElookup : ∀ d, dlookup (exportArgs (parserDests.map
        (fun d => (d, parsedValue cmd1 [] d))) [] (cliDetectedDests cmd1)) d =
      if exportPred [] (cliDetectedDests cmd1) d then
        dlookup (parserDests.map (fun d => (d, parsedValue cmd1 [] d))) d
      else Option.none :=
    fun d => dlookup_filter_key (exportPred [] (cliDetectedDests cmd1)) hndM1 d
  have hp1spec : ∀ d, exportPred [] (cliDetectedDests cmd1) d = true ↔
      (d ≠ "export_file" ∧ d ≠ "import_file" ∧ d ∈ cliDetectedDests cmd1) := by
    intro d
    unfold exportPred
    simp
  have hEvalid : ∀ kv ∈ exportArgs (parserDests.map (fun d => (d, parsedValue cmd1 [] d)))
      [] (cliDetectedDests cmd1), kv.1 ∈ parserActionDests := by
    intro kv hkv
    have hmem : kv.1 ∈ keysOf (exportArgs (parserDests.map
        (fun d => (d, parsedValue cmd1 [] d))) [] (cliDetectedDests cmd1)) :=
      List.mem_map_of_mem Prod.fst hkv
    rw [hEkeys] at hmem
    exact List.mem_cons_of_mem _ (List.mem_of_mem_filter hmem)
  have hload2 : loadConfigFile
      (Except.ok (exportArgs (parserDests.map (fun d => (d, parsedValue cmd1 [] d)))
        [] (cliDetectedDests cmd1))) parserActionDests true =
      LoadResult.ok ⟨exportArgs (parserDests.map (fun d => (d, parsedValue cmd1 [] d)))
        [] (cliDetectedDests cmd1), []⟩ :=
    loadConfigFile_rebuild _ _ _ hEnodup hEvalid
  have hup2 : dUpdate (bestEffortLayer
      ⟨[("export_file", PVal.str out2)], some ipath, false⟩ Option.none).1
      (exportArgs (parserDests.map (fun d => (d, parsedValue cmd1 [] d)))
        [] (cliDetectedDests cmd1)) =
      exportArgs (parserDests.map (fun d => (d, parsedValue cmd1 [] d)))
        [] (cliDetectedDests cmd1) := by
    rw [bestEffortLayer_none]
    exact dUpdate_nil_rebuild _ hEnodup
  have hM2 : mergeAndParse ⟨[("export_file", PVal.str out2)], some ipath, false⟩
      Option.none (Except.ok (exportArgs (parserDests.map
        (fun d => (d, parsedValue cmd1 [] d))) [] (cliDetectedDests cmd1))) =
      MergeResult.ok (parserDests.map (fun d =>
        (d, parsedValue ⟨[("export_file", PVal.str out2)], some ipath, false⟩
          (exportArgs (parserDests.map (fun d => (d, parsedValue cmd1 [] d)))
            [] (cliDetectedDests cmd1)) d)))
        (exportArgs (parserDests.map (fun d => (d, parsedValue cmd1 [] d)))
          [] (cliDetectedDests cmd1)) [] := by
    unfold mergeAndParse
    simp only [hload2, bestEffortLayer_none, dUpdate_nil_rebuild _ hEnodup,
      List.nil_append]
  have h2b : (some ((parserDests.map (fun d =>
      (d, parsedValue ⟨[("export_file", PVal.str out2)], some ipath, false⟩
        (exportArgs (parserDests.map (fun d => (d, parsedValue cmd1 [] d)))
          [] (cliDetectedDests cmd1)) d))),
      exportArgs (parserDests.map (fun d =>
        (d, parsedValue ⟨[("export_file", PVal.str out2)], some ipath, false⟩
          (exportArgs (parserDests.map (fun d => (d, parsedValue cmd1 [] d)))
            [] (cliDetectedDests cmd1)) d)))
        (exportArgs (parserDests.map (fun d => (d, parsedValue cmd1 [] d)))
          [] (cliDetectedDests cmd1))
        (cliDetectedDests ⟨[("export_file", PVal.str out2)], some ipath, false⟩)) :
      Option (List (String × PVal) × List (String × PVal))) = some (m2, E2) := by
    rw [← h2]
    unfold runExportPhase
    rw [hM2]
  have hm2eq := congrArg Prod.fst (Option.some.inj h2b)
  have hE2eq := congrArg Prod.snd (Option.some.inj h2b)
  subst hm2eq
  subst hE2eq
  have hsup2 : ∀ d, d ≠ "export_file" →
      dlookup (CmdLine.supplied ⟨[("export_file", PVal.str out2)], some ipath, false⟩) d =
        Option.none := by
    intro d hd
    show dlookup [("export_file", PVal.str out2)] d = Option.none
    rw [dlookup_cons, if_neg (fun he => hd he.symm)]
    rfl
  have HB : ∀ d ∈ parserDests, exportPred [] (cliDetectedDests cmd1) d = true →
      parsedValue ⟨[("export_file", PVal.str out2)], some ipath, false⟩
        (exportArgs (parserDests.map (fun d => (d, parsedValue cmd1 [] d)))
          [] (cliDetectedDests cmd1)) d =
      if d = "ignore_config" then PVal.bool false else parsedValue cmd1 [] d := by
    intro d hd hp1d
    obtain ⟨hne1, hne2, hcli⟩ := (hp1spec d).mp hp1d
    by_cases hig : d = "ignore_config"
    · subst hig
      rw [if_pos rfl, parsedValue_ignoreConfig]
    · rw [if_neg hig]
      by_cases htg : d = "target"
      · subst htg
        rw [parsedValue_target]
        simp only [hsup2 "target" (by decide)]
        rw [hElookup "target", if_pos hp1d, dlookup_tab _ _ hd]
        simp [pyFalsy]
      · rw [parsedValue_nontarget _ _ htg hne2 hig, hsup2 d hne1]
        simp only [Option.getD]
        rw [hElookup d, if_pos hp1d, dlookup_tab _ _ hd]
  have HC : ∀ d, d ≠ "export_file" → d ≠ "import_file" → d ≠ "ignore_config" →
      dlookup (parserDests.map (fun d =>
        (d, parsedValue ⟨[("export_file", PVal.str out2)], some ipath, false⟩
          (exportArgs (parserDests.map (fun d => (d, parsedValue cmd1 [] d)))
            [] (cliDetectedDests cmd1)) d))) d =
      dlookup (parserDests.map (fun d => (d, parsedValue cmd1 [] d))) d := by
    intro d hde him hig
    by_cases hd : d ∈ parserDests
    · rw [dlookup_tab _ _ hd, dlookup_tab _ _ hd]
      congr 1
      by_cases hp1d : exportPred [] (cliDetectedDests cmd1) d = true
      · rw [HB d hd hp1d, if_neg hig]
      · have hnotcli : d ∉ cliDetectedDests cmd1 := by
          intro hmem
          exact hp1d ((hp1spec d).mpr ⟨hde, him, hmem⟩)
        have hsup1 : dlookup cmd1.supplied d = Option.none := by
          rw [dlookup_eq_none]
          intro hmem
          apply hnotcli
          unfold cliDetectedDests
          exact List.mem_append.mpr (Or.inl (List.mem_append.mpr (Or.inl hmem)))
        have hEnone : dlookup (exportArgs (parserDests.map
            (fun d => (d, parsedValue cmd1 [] d))) [] (cliDetectedDests cmd1)) d =
            Option.none := by
          rw [hElookup d]
          simp [hp1d]
        by_cases htg : d = "target"
        · subst htg
          rw [parsedValue_target, parsedValue_target]
          rw [hsup2 "target" (by decide), hsup1, hEnone]
          simp
        · rw [parsedValue_nontarget _ _ htg him hig, parsedValue_nontarget _ _ htg him hig]
          rw [hsup2 d hde, hsup1, hEnone]
          rfl
    · rw [dlookup_tab_none _ _ hd, dlookup_tab_none _ _ hd]
  have hmval : ∀ d, d ≠ "export_file" → d ≠ "import_file" → d ≠ "ignore_config" →
      mval (parserDests.map (fun d =>
        (d, parsedValue ⟨[("export_file", PVal.str out2)], some ipath, false⟩
          (exportArgs (parserDests.map (fun d => (d, parsedValue cmd1 [] d)))
            [] (cliDetectedDests cmd1)) d))) d =
      mval (parserDests.map (fun d => (d, parsedValue cmd1 [] d))) d := by
    intro d hde him hig
    unfold mval
    rw [HC d hde him hig]
  refine ⟨?_, ?_, ?_⟩
  · unfold exportArgs
    have HD : ∀ d ∈ parserDests,
        exportPred (exportArgs (parserDests.map (fun d => (d, parsedValue cmd1 [] d)))
          [] (cliDetectedDests cmd1))
          (cliDetectedDests ⟨[("export_file", PVal.str out2)], some ipath, false⟩) d =
        exportPred [] (cliDetectedDests cmd1) d := by
      intro d hd
      unfold exportPred
      rw [decide_eq_decide]
      constructor
      · rintro ⟨ha, hb, hor⟩
        refine ⟨ha, hb, Or.inr ?_⟩
        rcases hor with hor | hor
        · rw [hEkeys] at hor
          have := List.of_mem_filter hor
          exact ((hp1spec d).mp this).2.2
        · exfalso
          have : d ∈ ["export_file", "import_file"] := hor
          rcases (by simpa using this : d = "export_file" ∨ d = "import_file") with h | h
          · exact ha h
          · exact hb h
      · rintro ⟨ha, hb, hor⟩
        rcases hor with hor | hor
        · simp at hor
        · refine ⟨ha, hb, Or.inl ?_⟩
          rw [hEkeys]
          exact List.mem_filter.mpr ⟨hd, (hp1spec d).mpr ⟨ha, hb, hor⟩⟩
    exact filtermap_congr parserDests (parsedValue cmd1 [])
      (parsedValue ⟨[("export_file", PVal.str out2)], some ipath, false⟩
        (exportArgs (parserDests.map (fun d => (d, parsedValue cmd1 [] d)))
          [] (cliDetectedDests cmd1)))
      (exportPred [] (cliDetectedDests cmd1))
      (exportPred (exportArgs (parserDests.map (fun d => (d, parsedValue cmd1 [] d)))
        [] (cliDetectedDests cmd1))
        (cliDetectedDests ⟨[("export_file", PVal.str out2)], some ipath, false⟩))
      (fun d hd => ⟨HD d hd, HB d hd⟩)
  · apply collectCmakeDefs_congr root
    · exact congrArg (fun v => (pvStr v).getD "Release")
        (hmval "build_type" (by decide) (by decide) (by decide))
    · exact congrArg pvStr (hmval "output_root" (by decide) (by decide) (by decide))
    · funext f
      show (if f ∈ ON_OFF_FLAGS then _ else Option.none) =
        (if f ∈ ON_OFF_FLAGS then _ else Option.none)
      by_cases hf : f ∈ ON_OFF_FLAGS
      · rw [if_pos hf, if_pos hf]
        obtain ⟨e1, e2, e3⟩ := of_decide_eq_true (List.all_eq_true.mp enableDestsClear f hf)
        exact congrArg pvStr (hmval _ e1 e2 e3)
      · rw [if_neg hf, if_neg hf]
    · exact congrArg pvStr (hmval "enable_cc" (by decide) (by decide) (by decide))
    · exact congrArg (fun v => (pvStr v).getD "TBB")
        (hmval "threading" (by decide) (by decide) (by decide))
    · exact congrArg pvTruthy (hmval "use_ccache" (by decide) (by decide) (by decide))
    · exact congrArg pvList (hmval "frontends" (by decide) (by decide) (by decide))
    · exact congrArg pvList (hmval "plugins" (by decide) (by decide) (by decide))
    · exact congrArg pvStr (hmval "cc_stat_file" (by decide) (by decide) (by decide))
    · exact congrArg pvTruthy (hmval "use_mold" (by decide) (by decide) (by decide))
    · exact congrArg pvStr (hmval "arch" (by decide) (by decide) (by decide))
  · apply computeBuildDir_congr
    · exact congrArg (fun v => (pvStr v).getD "Release")
        (hmval "build_type" (by decide) (by decide) (by decide))
    · exact congrArg pvStr (hmval "arch" (by decide) (by decide) (by decide))
    · exact congrArg (fun v => (pvStr v).getD "TBB")
        (hmval "threading" (by decide) (by decide) (by decide))
    · exact congrArg pvTruthy
        (hmval "native_compilation" (by decide) (by decide) (by decide))
    · funext f
      show (if f ∈ ON_OFF_FLAGS then _ else Option.none) =
        (if f ∈ ON_OFF_FLAGS then _ else Option.none)
      by_cases hf : f ∈ ON_OFF_FLAGS
      · rw [if_pos hf, if_pos hf]
        obtain ⟨e1, e2, e3⟩ := of_decide_eq_true (List.all_eq_true.mp enableDestsClear f hf)
        exact congrArg pvStr (hmval _ e1 e2 e3)
      · rw [if_neg hf, if_neg hf]

/-- The command line --ignore-config --build-type Debug --export cfg.yaml,
abstracted to its parse results. -/
def rtCmd1 : CmdLine :=
  ⟨[("build_type", PVal.str "Debug"), ("export_file", PVal.str "cfg.yaml")],
   Option.none, true⟩

/-- The document the first run exports. -/
def rtE : List (String × PVal) :=
  ((runExportPhase rtCmd1 Option.none (Except.ok [])).getD ([], [])).2

/-- The namespace mapping of the first run. -/
def rtM1 : List (String × PVal) :=
  ((runExportPhase rtCmd1 Option.none (Except.ok [])).getD ([], [])).1

/-- The second run: import the exported document, re-export. -/
def rtRun2 : Option (List (String × PVal) × List (String × PVal)) :=
  runExportPhase ⟨[("export_file", PVal.str "cfg2.yaml")], some "cfg.yaml", false⟩
    Option.none (Except.ok rtE)

/-- The re-exported document. -/
def rtE2 : List (String × PVal) := (rtRun2.getD ([], [])).2

/-- The namespace mapping of the second run. -/
def rtM2 : List (String × PVal) := (rtRun2.getD ([], [])).1

/-- Counterexample to C5 as stated: exporting after --ignore-config
serializes ignore_config true, but importing that document and
re-exporting yields ignore_config false, so the round trip is not
value-equivalent. -/
theorem exportRoundTripCounterexample :
    rtE = [("build_type", PVal.str "Debug"), ("ignore_config", PVal.bool true)] ∧
    rtE2 = [("build_type", PVal.str "Debug"), ("ignore_config", PVal.bool false)] ∧
    rtE2 ≠ rtE := by
  exact ⟨by decide, by decide, by decide⟩

/-- Witness for the amended C5 at the concrete round trip above. -/
theorem exportRoundTripWitness :
    rtE2 = rtE.map (fun kv =>
      if kv.1 = "ignore_config" then (kv.1, PVal.bool false) else kv) ∧
    collectCmakeDefs "/repo" (decodeArgs rtM2) = collectCmakeDefs "/repo" (decodeArgs rtM1) ∧
    computeBuildDir (decodeArgs rtM2) = computeBuildDir (decodeArgs rtM1) :=
  exportRoundTrip rtCmd1 "cfg2.yaml" "cfg.yaml" "/repo" rtM1 rtE rtM2 rtE2 rfl rfl rfl

end OVBuild
